import Mathlib

/-!
# touchpad-tool: the gesture loop of `processInput` (src/main.go)

A shallow embedding of the line-driven state machine in `processInput` and of
the long-press callback it arms with `time.AfterFunc`, together with the
properties of the specification that concern it.

Modelling conventions.

* A line of `getevent -l` output is represented by the results of the tests the
  loop performs on it (`strings.Contains` for seven fixed substrings and the one
  regular-expression match), see `Line`.
* `time.Now()` is an input of every event: a monotonic clock reading in
  nanoseconds.  The zero `time.Time` held by a variable that was never assigned
  is `none`.
* `appInForeground` is written by another goroutine; its value at the moment a
  line is processed is an input of the event.
* The callback of `time.AfterFunc` runs on its own goroutine.  It is an event of
  its own (`Event.timerFire`), executed atomically between two lines.
* Go `int` is 64 bits wide.  Coordinates come from `strconv.ParseInt(_, 16, 64)`
  on an unsigned digit string, so they lie in `[0, 2^63)` and their differences
  cannot wrap; `activeFingers` changes by at most one per line.  Both are
  unbounded `Int` here.
* `float64` arithmetic is IEEE-754 binary64 with round-to-nearest-even, every
  operation rounded on its own (no fused multiply-add), see `F64`.
-/

set_option exponentiation.threshold 16384

namespace Touchpad

/-! ## binary64 -/

/-- A finite binary64 value, represented exactly by the integer number of units
of `2^-1074` (the smallest subnormal) it is made of.  Overflow to infinity is
not represented: the values `processInput` computes are products of a 64-bit
integer with `3.2`, of a 32-bit integer with `0.1`, sums of the latter with an
accumulator below `1.0` in magnitude, and products of such a sum with `120`, all
far below `2^1024`. -/
abbrev F64 := Int

namespace F64

/-- The exponent of the unit: every finite binary64 value is an integer multiple
of `2^-1074`. -/
def unitExp : Nat := 1074

/-- The value `1.0` in units: `2^1074`. -/
def unit : Int := Int.ofNat (2 ^ unitExp)

/-- Binary search for the bit length: with `n < 2^(2^i)`, the result is `acc`
plus the number of binary digits of `n`. -/
def bitLenAux : Nat → Nat → Nat → Nat
  | 0, n, acc => if n = 0 then acc else acc + 1
  | i + 1, n, acc =>
    if 2 ^ 2 ^ i ≤ n then bitLenAux i (n / 2 ^ 2 ^ i) (acc + 2 ^ i) else bitLenAux i n acc

/-- The number of binary digits of `n`, for `n < 2^8192` (the product of two
finite binary64 values has fewer than 4200 digits in units of `2^-2148`). -/
def bitLen (n : Nat) : Nat := bitLenAux 13 n 0

/-- Round-to-nearest, ties-to-even, of the rational `N / 2^j` units to a value
with at most 53 significant bits that is a whole number of units.  `k` is the
number of low bits of `N` that do not fit. -/
def roundNat (N j : Nat) : Nat :=
  let k := max j (bitLen N - 53)
  let q := N / 2 ^ k
  let r := N % 2 ^ k
  let up := if 2 ^ k < 2 * r ∨ (2 * r = 2 ^ k ∧ q % 2 = 1) then 1 else 0
  (q + up) * 2 ^ (k - j)

/-- Rounding of the signed rational `n / 2^j` units (rounding is symmetric). -/
def round (n : Int) (j : Nat) : F64 :=
  Int.sign n * (roundNat n.natAbs j : Int)

/-- The conversion `float64(i)` of an integer. -/
def ofInt (i : Int) : F64 := round (i * unit) 0

/-- The product `a * b`, rounded. -/
def mul (a b : F64) : F64 := round (a * b) unitExp

/-- The sum `a + b`, rounded. -/
def add (a b : F64) : F64 := round (a + b) 0

/-- The fused multiply-add `a * b + c`, rounded once.  The Go compiler may fuse
`scrollAccum += float64(dy) * 0.1` on architectures that have the instruction
(arm64 among them); the embedding of `processInput` does not use it. -/
def fma (a b c : F64) : F64 := round (a * b + c * unit) unitExp

/-- The value `1.0`. -/
def one : F64 := unit

/-- The conversion `int32(a)`: truncation toward zero.  Go leaves the result
for a value outside the range of `int32` to the implementation; amd64 yields
`-2^31` there, which is what is used here. -/
def toInt32 (a : F64) : Int :=
  let t := Int.tdiv a unit
  if -2147483648 ≤ t ∧ t ≤ 2147483647 then t else -2147483648

end F64

/-! ## constants of src/main.go -/

/-- The constant `sensitivity = 3.2` as a `float64`: `0x1.999999999999Ap+1`. -/
def sensitivity : F64 := Int.ofNat (0x1999999999999A * 2 ^ (F64.unitExp - 51))

/-- The constant `0.1` of `float64(dy) * 0.1` as a `float64`:
`0x1.999999999999Ap-4`. -/
def scrollStep : F64 := Int.ofNat (0x1999999999999A * 2 ^ (F64.unitExp - 56))

/-- The constant `scrollSens = 120`. -/
def scrollSens : Int := 120

/-- The constant `tapTimeout` in nanoseconds. -/
def tapTimeout : Int := 200 * 1000000

/-- The constant `doubleTapTimeout` in nanoseconds. -/
def doubleTapTimeout : Int := 250 * 1000000

/-- The constant `longPressTimeout` in nanoseconds. -/
def longPressTimeout : Int := 600 * 1000000

/-- The largest `time.Duration`, which `time.Since` returns for the zero
`time.Time`. -/
def maxDuration : Int := 9223372036854775807

/-! ## data -/

/-- The first argument of `driver.Button`: the string `"left"` or `"right"`. -/
inductive Btn
  | left
  | right
  deriving DecidableEq, Repr

/-- A call on the `MouseDriver` interface made by the loop. -/
inductive Action
  | Move (dx dy : Int)
  | Button (button : Btn) (down : Bool)
  | Scroll (delta : Int)
  deriving DecidableEq, Repr

/-- The first capture group of `rePos`. -/
inductive Axis
  | X
  | Y
  deriving DecidableEq, Repr

/-- What `processInput` observes of one line. -/
structure Line where
  /-- Is `strings.Contains(line, "ABS_MT_TRACKING_ID")`. -/
  hasTrackingId : Bool
  /-- Is `strings.Contains(line, "ffffffff")`. -/
  hasFfffffff : Bool
  /-- Is `strings.Contains(line, "BTN_TOUCH")`. -/
  hasBtnTouch : Bool
  /-- Is `strings.Contains(line, " DOWN")`. -/
  hasDown : Bool
  /-- Is `strings.Contains(line, " UP")`. -/
  hasUp : Bool
  /-- Is `strings.Contains(line, touchDevice)`. -/
  hasTouchDevice : Bool
  /-- The match of `rePos`, if any: the axis and the number its hexadecimal
  digit string denotes. -/
  posMatch : Option (Axis × Nat)
  /-- Is `strings.Contains(line, "SYN_REPORT")`. -/
  hasSynReport : Bool
  deriving DecidableEq, Repr

/-- The local variables of `processInput`, and the timers created by
`time.AfterFunc` that have neither fired nor been stopped. -/
structure State where
  lastX : Int
  lastY : Int
  curX : Int
  curY : Int
  touchStartTime : Option Int
  lastReleaseTime : Option Int
  hasMoved : Bool
  rightClickDone : Bool
  isDragging : Bool
  lastTapWasPure : Bool
  /-- The timer the variable points to (`none` is `nil`); it may have fired or
  been stopped already. -/
  rightClickTimer : Option Nat
  scrollAccum : F64
  activeFingers : Int
  /-- The outstanding timers: identity and the time at which each is due. -/
  timers : List (Nat × Int)
  /-- The identity the next timer gets. -/
  nextTimer : Nat
  deriving DecidableEq, Repr

/-- The variables as declared before the loop. -/
def State.init : State :=
  { lastX := 0, lastY := 0, curX := 0, curY := 0,
    touchStartTime := none, lastReleaseTime := none,
    hasMoved := false, rightClickDone := false, isDragging := false,
    lastTapWasPure := false, rightClickTimer := none, scrollAccum := 0,
    activeFingers := 0, timers := [], nextTimer := 0 }

/-- What happens: a line is read, or an outstanding timer fires. -/
inductive Event
  | line (now : Int) (fg : Bool) (l : Line)
  | timerFire (now : Int) (id : Nat)
  deriving DecidableEq, Repr

/-! ## the loop body -/

/-- The duration `time.Since(t)` at clock reading `now`. -/
def since (t : Option Int) (now : Int) : Int :=
  match t with
  | none => maxDuration
  | some t0 => now - t0

/-- The value of `strconv.ParseInt(digits, 16, 64)`, the error ignored: a number
out of range yields the largest `int64`. -/
def parseHex (v : Nat) : Int := Int.ofNat (min v 9223372036854775807)

/-- The statement `if rightClickTimer != nil { rightClickTimer.Stop() }`. -/
def stopTimer (s : State) : State :=
  match s.rightClickTimer with
  | none => s
  | some id => { s with timers := s.timers.filter (fun t => t.1 != id) }

/-- The expression `int32(float64(a-b) * sensitivity)`. -/
def hostDelta (a b : Int) : Int :=
  F64.toInt32 (F64.mul (F64.ofInt (a - b)) sensitivity)

/-- The statement `if activeFingers > 0 { activeFingers-- }`. -/
def decFingers (s : State) : State :=
  if s.activeFingers > 0 then { s with activeFingers := s.activeFingers - 1 } else s

/-- The statement `if isDragging { driver.Button("left", false); isDragging = false }`. -/
def endDrag (s : State) : State × List Action :=
  if s.isDragging then ({ s with isDragging := false }, [Action.Button Btn.left false])
  else (s, [])

/-- The statements `lastTapWasPure = !hasMoved && activeFingers == 0` and
`lastReleaseTime = time.Now()`. -/
def recordRelease (s : State) (now : Int) : State :=
  { s with
    lastTapWasPure := !s.hasMoved && decide (s.activeFingers = 0),
    lastReleaseTime := some now }

/-- The statements `activeFingers++` and `lastX, lastY = 0, 0`. -/
def addFinger (s : State) : State :=
  { s with activeFingers := s.activeFingers + 1, lastX := 0, lastY := 0 }

/-- The statement `if lastTapWasPure && time.Since(lastReleaseTime) < doubleTapTimeout
{ isDragging = true; driver.Button("left", true) }`. -/
def startDrag (s : State) (now : Int) : State × List Action :=
  if s.lastTapWasPure = true ∧ since s.lastReleaseTime now < doubleTapTimeout then
    ({ s with isDragging := true }, [Action.Button Btn.left true])
  else (s, [])

/-- The block `if strings.Contains(line, "ABS_MT_TRACKING_ID")`. -/
def trackingBlock (s : State) (now : Int) (l : Line) : State × List Action :=
  if l.hasTrackingId then
    if l.hasFfffffff then
      let r := endDrag (decFingers s)
      (recordRelease r.1 now, r.2)
    else startDrag (addFinger s) now
  else (s, [])

/-- The statements `touchStartTime = time.Now()` and
`hasMoved, rightClickDone = false, false`. -/
def resetTouch (s : State) (now : Int) : State :=
  { s with touchStartTime := some now, hasMoved := false, rightClickDone := false }

/-- The statement `if !isDragging { rightClickTimer = time.AfterFunc(longPressTimeout, ...) }`:
a new timer becomes outstanding and the variable points to it; the timer the
variable pointed to before is left as it is. -/
def armTimer (s : State) (now : Int) : State :=
  if s.isDragging = false then
    { s with
      rightClickTimer := some s.nextTimer,
      timers := s.timers ++ [(s.nextTimer, now + longPressTimeout)],
      nextTimer := s.nextTimer + 1 }
  else s

/-- The statement `if !isDragging && !hasMoved && !rightClickDone &&
time.Since(touchStartTime) < tapTimeout { driver.Button("left", true);
driver.Button("left", false) }`. -/
def tap (s : State) (now : Int) : List Action :=
  if s.isDragging = false ∧ s.hasMoved = false ∧ s.rightClickDone = false
      ∧ since s.touchStartTime now < tapTimeout then
    [Action.Button Btn.left true, Action.Button Btn.left false]
  else []

/-- The block `if strings.Contains(line, "BTN_TOUCH")`. -/
def touchBlock (s : State) (now : Int) (l : Line) : State × List Action :=
  if l.hasBtnTouch then
    if l.hasDown then (armTimer (resetTouch s now) now, [])
    else if l.hasUp then (stopTimer s, tap (stopTimer s) now)
    else (s, [])
  else (s, [])

/-- The statements of `if activeFingers >= 2 { ... } else { driver.Move(dx, dy) }`. -/
def scrollOrMove (s : State) (dx dy : Int) : State × List Action :=
  if s.activeFingers ≥ 2 then
    let a := F64.add s.scrollAccum (F64.mul (F64.ofInt dy) scrollStep)
    if a ≥ F64.one ∨ a ≤ -F64.one then
      ({ s with scrollAccum := 0 },
        [Action.Scroll (F64.toInt32 (F64.mul a (F64.ofInt scrollSens)))])
    else ({ s with scrollAccum := a }, [])
  else (s, [Action.Move dx dy])

/-- The body of `if dx != 0 || dy != 0`. -/
def moved (s : State) (dx dy : Int) : State × List Action :=
  scrollOrMove (stopTimer { s with hasMoved := true }) dx dy

/-- The statement `if lastX != 0 && lastY != 0 && curX != 0 && curY != 0 { ... }`. -/
def motion (s : State) : State × List Action :=
  if s.lastX ≠ 0 ∧ s.lastY ≠ 0 ∧ s.curX ≠ 0 ∧ s.curY ≠ 0 then
    if hostDelta s.lastY s.curY ≠ 0 ∨ hostDelta s.curX s.lastX ≠ 0 then
      moved s (hostDelta s.lastY s.curY) (hostDelta s.curX s.lastX)
    else (s, [])
  else (s, [])

/-- The statement `lastX, lastY = curX, curY`. -/
def setBaseline (s : State) : State :=
  { s with lastX := s.curX, lastY := s.curY }

/-- The block `if strings.Contains(line, "SYN_REPORT")`. -/
def synReport (s : State) (fg : Bool) : State × List Action :=
  if fg = false then ({ s with lastX := 0, lastY := 0 }, [])
  else (setBaseline (motion s).1, (motion s).2)

/-- The statement `if matches := rePos.FindStringSubmatch(line); len(matches) > 0 { ... }`. -/
def setCur (s : State) (m : Option (Axis × Nat)) : State :=
  match m with
  | some (Axis.X, v) => { s with curX := parseHex v }
  | some (Axis.Y, v) => { s with curY := parseHex v }
  | none => s

/-- The block `if strings.Contains(line, touchDevice)`. -/
def deviceBlock (s : State) (fg : Bool) (l : Line) : State × List Action :=
  if l.hasTouchDevice then
    if l.hasSynReport then synReport (setCur s l.posMatch) fg
    else (setCur s l.posMatch, [])
  else (s, [])

/-- One iteration of `for scanner.Scan()`. -/
def processLine (s : State) (now : Int) (fg : Bool) (l : Line) : State × List Action :=
  let r1 := trackingBlock s now l
  let r2 := touchBlock r1.1 now l
  let r3 := deviceBlock r2.1 fg l
  (r3.1, r1.2 ++ r2.2 ++ r3.2)

/-- The function passed to `time.AfterFunc`. -/
def longPress (s : State) : State × List Action :=
  if s.hasMoved = false ∧ s.rightClickDone = false ∧ s.activeFingers = 1 then
    ({ s with rightClickDone := true },
      [Action.Button Btn.right true, Action.Button Btn.right false])
  else (s, [])

/-- Is timer `id` outstanding and due at `now`. -/
def due (s : State) (now : Int) (id : Nat) : Bool :=
  s.timers.any (fun t => t.1 == id && decide (t.2 ≤ now))

/-- One event.  A timer that is not outstanding, or not yet due, does not
fire. -/
def step (s : State) : Event → State × List Action
  | Event.line now fg l => processLine s now fg l
  | Event.timerFire now id =>
    if due s now id then
      longPress { s with timers := s.timers.filter (fun t => t.1 != id) }
    else (s, [])

/-- A sequence of events, with the driver calls made in order. -/
def run (s : State) : List Event → State × List Action
  | [] => (s, [])
  | e :: es =>
    let r := step s e
    let r2 := run r.1 es
    (r2.1, r.2 ++ r2.2)

/-! ## the lines of the multi-touch protocol -/

/-- A line with none of the observed features. -/
def Line.blank : Line :=
  { hasTrackingId := false, hasFfffffff := false, hasBtnTouch := false,
    hasDown := false, hasUp := false, hasTouchDevice := false,
    posMatch := none, hasSynReport := false }

/-- The line `ABS_MT_TRACKING_ID <id>` of a new finger. -/
def Line.newFinger : Line := { Line.blank with hasTrackingId := true, hasTouchDevice := true }

/-- The line `ABS_MT_TRACKING_ID ffffffff` of a finger lift. -/
def Line.lift : Line :=
  { Line.blank with hasTrackingId := true, hasFfffffff := true, hasTouchDevice := true }

/-- The line `BTN_TOUCH DOWN`. -/
def Line.touchDown : Line :=
  { Line.blank with hasBtnTouch := true, hasDown := true, hasTouchDevice := true }

/-- The line `BTN_TOUCH UP`. -/
def Line.touchUp : Line :=
  { Line.blank with hasBtnTouch := true, hasUp := true, hasTouchDevice := true }

/-- The line `ABS_MT_POSITION_X <v>`. -/
def Line.posX (v : Nat) : Line :=
  { Line.blank with hasTouchDevice := true, posMatch := some (Axis.X, v) }

/-- The line `ABS_MT_POSITION_Y <v>`. -/
def Line.posY (v : Nat) : Line :=
  { Line.blank with hasTouchDevice := true, posMatch := some (Axis.Y, v) }

/-- The line `SYN_REPORT`. -/
def Line.syn : Line := { Line.blank with hasTouchDevice := true, hasSynReport := true }

/-! ## kinds of lines, events and driver calls -/

/-- Whether a line is neither a tracking-id nor a touch-button line: only the
position and sync-report handling acts on it. -/
def Line.isSample (l : Line) : Bool := !l.hasTrackingId && !l.hasBtnTouch

/-- Whether an event is a line that is neither a tracking-id nor a touch-button
line (a position sample or a sync-report). -/
def Event.isSample : Event → Bool
  | Event.line _ _ l => l.isSample
  | Event.timerFire _ _ => false

/-- Whether a line is a finger lift: a tracking-id line holding `ffffffff`. -/
def Line.isLift (l : Line) : Bool := l.hasTrackingId && l.hasFfffffff

/-- Whether a line is a touch-button DOWN line. -/
def Line.isTouchDown (l : Line) : Bool := l.hasBtnTouch && l.hasDown

/-- Whether an event is a line, not a timer firing. -/
def Event.isLine : Event → Bool
  | Event.line _ _ _ => true
  | Event.timerFire _ _ => false

/-- Whether an event is a touch-button DOWN line. -/
def Event.isTouchDown : Event → Bool
  | Event.line _ _ l => l.isTouchDown
  | Event.timerFire _ _ => false

/-- Whether an event is a finger-lift line. -/
def Event.isLift : Event → Bool
  | Event.line _ _ l => l.isLift
  | Event.timerFire _ _ => false

/-- Whether an event is a tracking-id line (a new finger or a finger lift). -/
def Event.isTracking : Event → Bool
  | Event.line _ _ l => l.hasTrackingId
  | Event.timerFire _ _ => false

/-- Whether an event is movement: a sync-report line of the touch device, read
with the foreground flag set, for which the baseline and the current sample (as
they stand when the line reaches its sync-report) are non-zero in all four
coordinates and give host deltas that are not both zero. -/
def Event.moves (s : State) : Event → Bool
  | Event.line now fg l =>
    let c := setCur (touchBlock (trackingBlock s now l).1 now l).1 l.posMatch
    l.hasTouchDevice && l.hasSynReport && fg &&
      decide (c.lastX ≠ 0 ∧ c.lastY ≠ 0 ∧ c.curX ≠ 0 ∧ c.curY ≠ 0 ∧
        (hostDelta c.lastY c.curY ≠ 0 ∨ hostDelta c.curX c.lastX ≠ 0))
  | Event.timerFire _ _ => false

/-- Whether there has been movement since the last touch-button DOWN, after the
events `es` from state `s`: a touch-button DOWN line forgets earlier movement, a
moving sync-report records it; `m` says whether there was movement before. -/
def movedAfter (m : Bool) (s : State) : List Event → Bool
  | [] => m
  | e :: es => movedAfter ((!e.isTouchDown && m) || e.moves s) (step s e).1 es

/-- The number of fingers down after the events `es`, counted on the lines
alone from `n` fingers: a finger lift takes one off unless none is down, any
other tracking-id line adds one. -/
def fingersAfter (n : Int) : List Event → Int
  | [] => n
  | Event.line _ _ l :: es =>
    fingersAfter
      (if l.hasTrackingId then
        if l.hasFfffffff then (if n > 0 then n - 1 else n) else n + 1
      else n) es
  | Event.timerFire _ _ :: es => fingersAfter n es

/-- Whether a driver call is `Button("right", _)`. -/
def Action.isRight : Action → Bool
  | Action.Button Btn.right _ => true
  | _ => false

/-- Whether a driver call is `Button("left", false)`. -/
def Action.isLeftUp : Action → Bool
  | Action.Button Btn.left false => true
  | _ => false

/-- Whether a driver call is `Button("left", _)`. -/
def Action.isLeft : Action → Bool
  | Action.Button Btn.left _ => true
  | _ => false

/-- The logical state of the left button after a sequence of driver calls: the
`down` argument of the last `Button("left", _)`, or `d` when there is none. -/
def leftDown (d : Bool) : List Action → Bool
  | [] => d
  | Action.Button Btn.left b :: as => leftDown b as
  | Action.Button Btn.right _ :: as => leftDown d as
  | Action.Move _ _ :: as => leftDown d as
  | Action.Scroll _ :: as => leftDown d as

/-- The four coordinate variables hold values that `strconv.ParseInt(_, 16, 64)`
can return for an unsigned digit string: they lie in `[0, 2^63)`, so that their
differences fit a 64-bit `int`. -/
def State.coordsInRange (s : State) : Prop :=
  (0 ≤ s.lastX ∧ s.lastX ≤ 9223372036854775807) ∧
  (0 ≤ s.lastY ∧ s.lastY ≤ 9223372036854775807) ∧
  (0 ≤ s.curX ∧ s.curX ≤ 9223372036854775807) ∧
  (0 ≤ s.curY ∧ s.curY ≤ 9223372036854775807)

/-! ## the reading of `round`, and two states used as examples -/

/-- The nearest integer to a binary64 value, halves away from zero: the reading
of `round` in the specification of the scroll delta. -/
def specRound (a : F64) : Int :=
  Int.sign a * Int.ofNat ((2 * a.natAbs + F64.unit.natAbs) / (2 * F64.unit.natAbs))

/-- The state in which two fingers rest at `(102, 100)` after having moved there
from `(100, 100)`, and the X coordinate `113` has just been read: the
accumulator holds `float64(6) * 0.1`. -/
def twoFingerState : State :=
  (run State.init [Event.line 0 true Line.newFinger, Event.line 0 true Line.newFinger,
    Event.line 0 true (Line.posX 100), Event.line 0 true (Line.posY 100),
    Event.line 0 true Line.syn, Event.line 0 true (Line.posX 102), Event.line 0 true Line.syn,
    Event.line 0 true (Line.posX 113)]).1

/-- The state reached when the first sample of a finger carries only a Y
coordinate (`5`, with `curX` still `0`), and the sample `(3, 4)` has just been
read: the baseline is `(0, 5)`. -/
def halfBaselineState : State :=
  (run State.init [Event.line 0 true Line.newFinger, Event.line 0 true (Line.posY 5),
    Event.line 0 true Line.syn, Event.line 0 true (Line.posX 3),
    Event.line 0 true (Line.posY 4)]).1

/-- The lines of a session in which a touch-button DOWN is repeated: new finger
and DOWN at 0, DOWN again at 100 ms, finger lift and touch-button UP at 150 ms,
then a new finger and DOWN at 450 ms. -/
def staleTimerSession : List Event :=
  [Event.line 0 true Line.newFinger, Event.line 0 true Line.touchDown,
    Event.line 100000000 true Line.touchDown, Event.line 150000000 true Line.lift,
    Event.line 150000000 true Line.touchUp, Event.line 450000000 true Line.newFinger,
    Event.line 450000000 true Line.touchDown]

/-! ## the Linux backend (src/internal/drivers/driver_linux.go) -/

/-- The struct `linuxInputEvent`: `Sec` and `Usec` are the two fields of `Time`,
`Typ` is the field `Type` (a `uint16`, as is `Code`), `Value` is an `int32`. -/
structure linuxInputEvent where
  Sec : Int
  Usec : Int
  Typ : Nat
  Code : Nat
  Value : Int
  deriving DecidableEq, Repr

/-- The struct `LinuxDriver`.  Of the file `/dev/uinput` only what has been
written to it is kept: the events passed to `binary.Write`, in order. -/
structure LinuxDriver where
  file : List linuxInputEvent
  deriving DecidableEq, Repr

/-- The fields of an event that a caller of `WriteEvent` chooses. -/
def linuxInputEvent.fields (e : linuxInputEvent) : Nat × Nat × Int :=
  (e.Typ, e.Code, e.Value)

/-- The synchronization marker: `EV_SYN`, `SYN_REPORT`, value `0`. -/
def synMarker : Nat × Nat × Int := (0, 0, 0)

namespace LinuxDriver

/-- The method `WriteEvent`: an event with the three fields given and `Time`
left zero is written. -/
def WriteEvent (l : LinuxDriver) (typ code : Nat) (val : Int) : LinuxDriver :=
  { file := l.file ++ [{ Sec := 0, Usec := 0, Typ := typ, Code := code, Value := val }] }

/-- The method `Move`. -/
def Move (l : LinuxDriver) (dx dy : Int) : LinuxDriver :=
  ((l.WriteEvent 0x02 0x00 dx).WriteEvent 0x02 0x01 dy).WriteEvent 0x00 0x00 0

/-- The method `Button`: `val` is `1` when `down` and stays `0` otherwise,
`code` is `0x110` unless `b == "right"`. -/
def Button (l : LinuxDriver) (b : String) (down : Bool) : LinuxDriver :=
  let val : Int := if down then 1 else 0
  let code : Nat := if b = "right" then 0x111 else 0x110
  (l.WriteEvent 0x01 code val).WriteEvent 0x00 0x00 0

/-- The method `Scroll`. -/
def Scroll (l : LinuxDriver) (d : Int) : LinuxDriver :=
  (l.WriteEvent 0x02 0x08 d).WriteEvent 0x00 0x00 0

/-- The fields of the events written since the driver was in state `l0`. -/
def written (l l0 : LinuxDriver) : List (Nat × Nat × Int) :=
  (l.file.drop l0.file.length).map linuxInputEvent.fields

end LinuxDriver

/-- The string `processInput` passes to `driver.Button`. -/
def Btn.name : Btn → String
  | Btn.left => "left"
  | Btn.right => "right"

/-- A call of `processInput` on the `MouseDriver` interface, made on the Linux
backend. -/
def LinuxDriver.call (l : LinuxDriver) : Action → LinuxDriver
  | Action.Move dx dy => l.Move dx dy
  | Action.Button b down => l.Button b.name down
  | Action.Scroll d => l.Scroll d

/-- The driver calls of `processInput`, made in order on the Linux backend. -/
def LinuxDriver.calls (l : LinuxDriver) (as : List Action) : LinuxDriver :=
  as.foldl LinuxDriver.call l

/-! ## binary64: the bit length and rounding -/

namespace F64

theorem bitLenAux_zero (i acc : Nat) : bitLenAux i 0 acc = acc := by
  induction i generalizing acc with
  | zero => simp [bitLenAux]
  | succ i ih =>
    have h : ¬ 2 ^ 2 ^ i ≤ 0 := by
      have : 0 < 2 ^ 2 ^ i := Nat.two_pow_pos _
      omega
    simp only [bitLenAux, if_neg h]
    exact ih acc

theorem bitLenAux_spec (i : Nat) : ∀ n acc : Nat, 0 < n → n < 2 ^ 2 ^ i →
    ∃ L, bitLenAux i n acc = acc + L ∧ 1 ≤ L ∧ 2 ^ (L - 1) ≤ n ∧ n < 2 ^ L := by
  induction i with
  | zero =>
    intro n acc h0 h1
    have hn : n = 1 := by
      simp at h1
      omega
    subst hn
    exact ⟨1, by simp [bitLenAux], le_refl _, by simp, by simp⟩
  | succ i ih =>
    intro n acc h0 h1
    by_cases hc : 2 ^ 2 ^ i ≤ n
    · have hpos : 0 < 2 ^ 2 ^ i := Nat.two_pow_pos _
      have hq0 : 0 < n / 2 ^ 2 ^ i := Nat.div_pos hc hpos
      have hq1 : n / 2 ^ 2 ^ i < 2 ^ 2 ^ i := by
        rw [Nat.div_lt_iff_lt_mul hpos]
        calc n < 2 ^ 2 ^ (i + 1) := h1
          _ = 2 ^ 2 ^ i * 2 ^ 2 ^ i := by rw [← pow_add, pow_succ, mul_two]
      obtain ⟨L, hL, h1L, hlo, hhi⟩ := ih (n / 2 ^ 2 ^ i) (acc + 2 ^ i) hq0 hq1
      refine ⟨2 ^ i + L, ?_, le_trans h1L (Nat.le_add_left _ _), ?_, ?_⟩
      · simp only [bitLenAux, if_pos hc, hL]
        omega
      · have e : 2 ^ i + L - 1 = 2 ^ i + (L - 1) := Nat.add_sub_assoc h1L _
        rw [e, pow_add]
        calc 2 ^ 2 ^ i * 2 ^ (L - 1) ≤ 2 ^ 2 ^ i * (n / 2 ^ 2 ^ i) :=
              Nat.mul_le_mul_left _ hlo
          _ ≤ n := Nat.mul_div_le n _
      · rw [pow_add]
        calc n < 2 ^ 2 ^ i * (n / 2 ^ 2 ^ i + 1) := Nat.lt_mul_div_succ n hpos
          _ ≤ 2 ^ 2 ^ i * 2 ^ L := Nat.mul_le_mul_left _ hhi
    · have hlt : n < 2 ^ 2 ^ i := not_le.mp hc
      obtain ⟨L, hL, h1L, hlo, hhi⟩ := ih n acc h0 hlt
      exact ⟨L, by simp only [bitLenAux, if_neg hc, hL], h1L, hlo, hhi⟩

theorem bitLen_spec (n : Nat) (h0 : 0 < n) (hn : n < 2 ^ 8192) :
    1 ≤ bitLen n ∧ 2 ^ (bitLen n - 1) ≤ n ∧ n < 2 ^ bitLen n := by
  obtain ⟨L, hL, h1, hlo, hhi⟩ := bitLenAux_spec 13 n 0 h0 (by simpa using hn)
  have : bitLen n = L := by simp [bitLen, hL]
  rw [this]
  exact ⟨h1, hlo, hhi⟩

theorem bitLen_eq (n L : Nat) (hL : 1 ≤ L) (hlo : 2 ^ (L - 1) ≤ n) (hhi : n < 2 ^ L)
    (hn : n < 2 ^ 8192) : bitLen n = L := by
  have h0 : 0 < n := lt_of_lt_of_le (Nat.two_pow_pos _) hlo
  obtain ⟨h1, hlo2, hhi2⟩ := bitLen_spec n h0 hn
  by_contra hne
  rcases Nat.lt_or_gt_of_ne hne with h | h
  · have : 2 ^ bitLen n ≤ 2 ^ (L - 1) := Nat.pow_le_pow_right (by norm_num) (by omega)
    omega
  · have : 2 ^ L ≤ 2 ^ (bitLen n - 1) := Nat.pow_le_pow_right (by norm_num) (by omega)
    omega

theorem bitLen_mul_pow (M e : Nat) (h0 : 0 < M) (hb : M * 2 ^ e < 2 ^ 8192) :
    bitLen (M * 2 ^ e) = bitLen M + e := by
  have hpos : 0 < 2 ^ e := Nat.two_pow_pos _
  have hM : M < 2 ^ 8192 := lt_of_le_of_lt (Nat.le_mul_of_pos_right M hpos) hb
  obtain ⟨h1, hlo, hhi⟩ := bitLen_spec M h0 hM
  apply bitLen_eq _ _ (le_trans h1 (Nat.le_add_right _ _)) _ _ hb
  · have e1 : bitLen M + e - 1 = (bitLen M - 1) + e := by omega
    rw [e1, pow_add]
    exact Nat.mul_le_mul_right _ hlo
  · rw [pow_add]
    exact Nat.mul_lt_mul_of_pos_right hhi hpos

theorem bitLen_ge (M : Nat) (hM : 2 ^ 52 ≤ M) (hb : M < 2 ^ 8192) : 53 ≤ bitLen M := by
  obtain ⟨_, _, hhi⟩ := bitLen_spec M (lt_of_lt_of_le (Nat.two_pow_pos _) hM) hb
  by_contra hc
  have : 2 ^ bitLen M ≤ 2 ^ 52 := Nat.pow_le_pow_right (by norm_num) (by omega)
  omega

/-- Rounding a value with at least 53 significant bits does not depend on its
scale. -/
theorem roundNat_scale (M e j : Nat) (hM : 2 ^ 52 ≤ M) (he : j ≤ e)
    (hb : M * 2 ^ e < 2 ^ 8192) :
    roundNat (M * 2 ^ e) j = roundNat M 0 * 2 ^ (e - j) := by
  have hpos : 0 < 2 ^ e := Nat.two_pow_pos _
  have h0 : 0 < M := lt_of_lt_of_le (Nat.two_pow_pos _) hM
  have hMb : M < 2 ^ 8192 := lt_of_le_of_lt (Nat.le_mul_of_pos_right M hpos) hb
  have h53 := bitLen_ge M hM hMb
  have hk : max j (bitLen (M * 2 ^ e) - 53) = (bitLen M - 53) + e := by
    rw [bitLen_mul_pow M e h0 hb]
    omega
  have hk0 : max 0 (bitLen M - 53) = bitLen M - 53 := by omega
  unfold roundNat
  simp only [hk, hk0]
  generalize bitLen M - 53 = m
  have hq : M * 2 ^ e / 2 ^ (m + e) = M / 2 ^ m := by
    rw [pow_add]
    exact Nat.mul_div_mul_right _ _ hpos
  have hr : M * 2 ^ e % 2 ^ (m + e) = M % 2 ^ m * 2 ^ e := by
    rw [pow_add]
    exact Nat.mul_mod_mul_right _ _ _
  have hc1 : (2 ^ (m + e) < 2 * (M % 2 ^ m * 2 ^ e)) ↔ (2 ^ m < 2 * (M % 2 ^ m)) := by
    rw [pow_add, ← mul_assoc]
    exact Nat.mul_lt_mul_right hpos
  have hc2 : (2 * (M % 2 ^ m * 2 ^ e) = 2 ^ (m + e)) ↔ (2 * (M % 2 ^ m) = 2 ^ m) := by
    rw [pow_add, ← mul_assoc]
    exact Nat.mul_left_inj (Nat.pos_iff_ne_zero.mp hpos)
  rw [hq, hr]
  simp only [hc1, hc2, Nat.sub_zero]
  have he2 : m + e - j = m + (e - j) := by omega
  rw [he2, pow_add, mul_assoc]

/-- The rounded value is at least every multiple of the rounding step that the
exact value reaches. -/
theorem roundNat_lower (M t : Nat) (h : t * 2 ^ (bitLen M - 53) ≤ M) :
    t * 2 ^ (bitLen M - 53) ≤ roundNat M 0 := by
  unfold roundNat
  have hk0 : max 0 (bitLen M - 53) = bitLen M - 53 := by omega
  simp only [hk0, Nat.sub_zero]
  generalize bitLen M - 53 = m at h ⊢
  have hpos : 0 < 2 ^ m := Nat.two_pow_pos _
  have ht : t ≤ M / 2 ^ m := (Nat.le_div_iff_mul_le hpos).mpr h
  exact Nat.mul_le_mul_right _ (le_trans ht (Nat.le_add_right _ _))

/-- The rounded value exceeds the exact value by at most half a rounding step. -/
theorem roundNat_upper (M : Nat) : 2 * roundNat M 0 ≤ 2 * M + 2 ^ (bitLen M - 53) := by
  unfold roundNat
  have hk0 : max 0 (bitLen M - 53) = bitLen M - 53 := by omega
  simp only [hk0, Nat.sub_zero]
  generalize bitLen M - 53 = m
  have hdm := Nat.div_add_mod M (2 ^ m)
  have hmul : 2 ^ m * (M / 2 ^ m) = M / 2 ^ m * 2 ^ m := Nat.mul_comm _ _
  split
  · rename_i h
    have h2 : 2 ^ m ≤ 2 * (M % 2 ^ m) := by
      rcases h with h | h
      · exact le_of_lt h
      · exact le_of_eq h.1.symm
    rw [Nat.add_mul, one_mul]
    omega
  · rw [Nat.add_zero]
    omega

/-- The product of a natural number below `2^29` with the binary64 value of
`3.2`, rounded and then truncated to an integer, is the integer part of the
exact product `16 n / 5`. -/
theorem roundNat_sensitivity (n : Nat) (hn : n < 2 ^ 29) :
    roundNat (n * 2 ^ 1074 * (0x1999999999999A * 2 ^ 1023)) 1074 / 2 ^ 1074 = 16 * n / 5 := by
  rcases Nat.eq_zero_or_pos n with h0 | h0
  · subst h0
    decide
  · have hN : n * 2 ^ 1074 * (0x1999999999999A * 2 ^ 1023)
        = (n * 0x1999999999999A) * 2 ^ 2097 := by
      have : (2 : Nat) ^ 2097 = 2 ^ 1074 * 2 ^ 1023 := by rw [← pow_add]
      rw [this]
      ring
    have hM52 : 2 ^ 52 ≤ n * 0x1999999999999A := by
      have : (2 : Nat) ^ 52 = 4503599627370496 := by norm_num
      omega
    have hM82 : n * 0x1999999999999A < 2 ^ 82 := by
      have h1 : (2 : Nat) ^ 82 = 2 ^ 29 * 2 ^ 53 := by rw [← pow_add]
      have h2 : (0x1999999999999A : Nat) < 2 ^ 53 := by norm_num
      rw [h1]
      calc n * 0x1999999999999A < 2 ^ 29 * 0x1999999999999A :=
            Nat.mul_lt_mul_of_pos_right hn (by norm_num)
        _ ≤ 2 ^ 29 * 2 ^ 53 := Nat.mul_le_mul_left _ (le_of_lt h2)
    have hb : n * 0x1999999999999A * 2 ^ 2097 < 2 ^ 8192 := by
      calc n * 0x1999999999999A * 2 ^ 2097 < 2 ^ 82 * 2 ^ 2097 :=
            Nat.mul_lt_mul_of_pos_right hM82 (Nat.two_pow_pos _)
        _ = 2 ^ 2179 := by rw [← pow_add]
        _ ≤ 2 ^ 8192 := Nat.pow_le_pow_right (by norm_num) (by norm_num)
    have hMb : n * 0x1999999999999A < 2 ^ 8192 :=
      lt_of_lt_of_le hM82 (Nat.pow_le_pow_right (by norm_num) (by norm_num))
    rw [hN, roundNat_scale _ 2097 1074 hM52 (by norm_num) hb]
    have h1023 : (2 : Nat) ^ 1074 = 2 ^ 51 * 2 ^ (2097 - 1074) := by rw [← pow_add]
    rw [h1023, Nat.mul_div_mul_right _ _ (Nat.two_pow_pos _)]
    generalize hMdef : n * 0x1999999999999A = M at hM52 hM82 hMb
    obtain ⟨hb1, hblo, _⟩ := bitLen_spec M (lt_of_lt_of_le (Nat.two_pow_pos _) hM52) hMb
    have h53 := bitLen_ge M hM52 hMb
    have hm : bitLen M - 53 ≤ 29 := by
      by_contra hc
      have : 2 ^ 82 ≤ 2 ^ (bitLen M - 1) := Nat.pow_le_pow_right (by norm_num) (by omega)
      omega
    have hlow := roundNat_lower M (16 * n / 5 * 2 ^ (51 - (bitLen M - 53)))
    have hup := roundNat_upper M
    have hpm : 2 ^ (bitLen M - 53) ≤ 2 ^ 29 := Nat.pow_le_pow_right (by norm_num) hm
    have hsplit : 16 * n / 5 * 2 ^ (51 - (bitLen M - 53)) * 2 ^ (bitLen M - 53)
        = 16 * n / 5 * 2 ^ 51 := by
      rw [mul_assoc, ← pow_add]
      congr 2
      omega
    rw [hsplit] at hlow
    have e51 : (2 : Nat) ^ 51 = 2251799813685248 := by norm_num
    have e29 : (2 : Nat) ^ 29 = 536870912 := by norm_num
    rw [e51] at hlow ⊢
    rw [e29] at hpm hn
    apply Nat.div_eq_of_lt_le
    · apply hlow
      omega
    · omega

/-- An integer of fewer than 54 bits is a binary64 value: its conversion is
exact. -/
theorem roundNat_ofNat (n : Nat) (hn : n < 2 ^ 53) :
    roundNat (n * 2 ^ 1074) 0 = n * 2 ^ 1074 := by
  rcases Nat.eq_zero_or_pos n with h0 | h0
  · subst h0
    decide
  · have hb : n * 2 ^ 1074 < 2 ^ 8192 := by
      calc n * 2 ^ 1074 < 2 ^ 53 * 2 ^ 1074 :=
            Nat.mul_lt_mul_of_pos_right hn (Nat.two_pow_pos _)
        _ = 2 ^ 1127 := by rw [← pow_add]
        _ ≤ 2 ^ 8192 := Nat.pow_le_pow_right (by norm_num) (by norm_num)
    have hnb : n < 2 ^ 8192 :=
      lt_of_lt_of_le hn (Nat.pow_le_pow_right (by norm_num) (by norm_num))
    obtain ⟨h1, hlo, _⟩ := bitLen_spec n h0 hnb
    have h53 : bitLen n ≤ 53 := by
      by_contra hc
      have : 2 ^ 53 ≤ 2 ^ (bitLen n - 1) := Nat.pow_le_pow_right (by norm_num) (by omega)
      omega
    have hk : max 0 (bitLen (n * 2 ^ 1074) - 53) = bitLen n + 1021 := by
      rw [bitLen_mul_pow n 1074 h0 hb]
      omega
    have hsplit : n * 2 ^ 1074 = n * 2 ^ (53 - bitLen n) * 2 ^ (bitLen n + 1021) := by
      have e : 1074 = (53 - bitLen n) + (bitLen n + 1021) := by omega
      rw [mul_assoc, ← pow_add, ← e]
    unfold roundNat
    simp only [hk, Nat.sub_zero]
    have hpos : 0 < 2 ^ (bitLen n + 1021) := Nat.two_pow_pos _
    have hr : n * 2 ^ 1074 % 2 ^ (bitLen n + 1021) = 0 := by
      rw [hsplit]
      exact Nat.mul_mod_left _ _
    have hq : n * 2 ^ 1074 / 2 ^ (bitLen n + 1021) * 2 ^ (bitLen n + 1021) = n * 2 ^ 1074 :=
      Nat.div_mul_cancel (Nat.dvd_of_mod_eq_zero hr)
    have hc1 : ¬ (2 ^ (bitLen n + 1021) < 2 * 0) := by omega
    have hc2 : ¬ (2 * 0 = 2 ^ (bitLen n + 1021) ∧
        n * 2 ^ 1074 / 2 ^ (bitLen n + 1021) % 2 = 1) := by
      rintro ⟨h, _⟩
      omega
    rw [hr, if_neg (not_or.mpr ⟨hc1, hc2⟩), Nat.add_zero]
    exact hq

theorem ofInt_exact (i : Int) (h : i.natAbs < 2 ^ 53) : ofInt i = i * unit := by
  unfold ofInt round
  have hu : unit.natAbs = 2 ^ 1074 := rfl
  rw [Int.natAbs_mul, hu, roundNat_ofNat _ h]
  have : ((i.natAbs * 2 ^ 1074 : Nat) : Int) = (i * unit).natAbs := by
    rw [Int.natAbs_mul, hu]
  rw [this]
  exact Int.sign_mul_natAbs _

end F64

/-- The binary64 value of `sensitivity` has 53 significant bits and lies within
half a unit in the last place (`2^-52`) of `3.2 = 16/5`. -/
theorem sensitivity_nearest :
    sensitivity = Int.ofNat (0x1999999999999A * 2 ^ 1023) ∧ 0x1999999999999A < 2 ^ 53 ∧
    2 * (5 * sensitivity - 16 * F64.unit).natAbs ≤ 5 * 2 ^ 1023 := by
  decide

/-- The binary64 value of `0.1` has 53 significant bits and lies within half a
unit in the last place (`2^-57`) of `1/10`. -/
theorem scrollStep_nearest :
    scrollStep = Int.ofNat (0x1999999999999A * 2 ^ 1018) ∧
    2 * (10 * scrollStep - F64.unit).natAbs ≤ 10 * 2 ^ 1018 := by
  decide

/-- The host delta of a coordinate difference below `2^29` in magnitude is the
exact product with `3.2 = 16/5`, truncated toward zero. -/
theorem hostDelta_exact (a b : Int) (h : (a - b).natAbs < 2 ^ 29) :
    hostDelta a b = Int.tdiv (16 * (a - b)) 5 := by
  have h53 : (a - b).natAbs < 2 ^ 53 :=
    lt_of_lt_of_le h (Nat.pow_le_pow_right (by norm_num) (by norm_num))
  unfold hostDelta
  rw [F64.ofInt_exact _ h53]
  generalize a - b = d at h
  have hs : sensitivity.natAbs = 0x1999999999999A * 2 ^ 1023 := rfl
  have hu : F64.unit.natAbs = 2 ^ 1074 := rfl
  have hsp : Int.sign sensitivity = 1 := rfl
  have hup : Int.sign F64.unit = 1 := rfl
  have hR : F64.roundNat (d.natAbs * 2 ^ 1074 * (0x1999999999999A * 2 ^ 1023)) F64.unitExp
      / 2 ^ 1074 = 16 * d.natAbs / 5 := F64.roundNat_sensitivity d.natAbs h
  have hbound : 16 * d.natAbs / 5 < 2147483648 := by
    have e29 : (2 : Nat) ^ 29 = 536870912 := by norm_num
    rw [e29] at h
    omega
  unfold F64.mul F64.round F64.toInt32
  rw [Int.natAbs_mul, Int.natAbs_mul, hs, hu, Int.sign_mul, Int.sign_mul, hsp, hup, mul_one,
    mul_one]
  have hunit : F64.unit = ((2 ^ 1074 : Nat) : Int) := rfl
  rcases Int.natAbs_eq d with hd | hd
  · rcases Nat.eq_zero_or_pos d.natAbs with h0 | h0
    · have : d = 0 := Int.natAbs_eq_zero.mp h0
      subst this
      decide
    · have hsg : Int.sign d = 1 := by
        rw [hd]; exact Int.sign_ofNat_of_nonzero (Nat.pos_iff_ne_zero.mp h0)
      rw [hsg, one_mul, hunit, ← Int.ofNat_tdiv, hR]
      have e1 : Int.tdiv (16 * d) 5 = ((16 * d.natAbs / 5 : Nat) : Int) := by
        rw [hd, Int.natAbs_ofNat]; rfl
      rw [e1]
      dsimp only
      rw [if_pos]
      constructor <;> omega
  · rcases Nat.eq_zero_or_pos d.natAbs with h0 | h0
    · have : d = 0 := Int.natAbs_eq_zero.mp h0
      subst this
      decide
    · have hsg : Int.sign d = -1 := by
        rw [hd, Int.sign_neg, Int.sign_ofNat_of_nonzero (Nat.pos_iff_ne_zero.mp h0)]
      rw [hsg, neg_one_mul, Int.neg_tdiv, hunit, ← Int.ofNat_tdiv, hR]
      have e1 : Int.tdiv (16 * d) 5 = -((16 * d.natAbs / 5 : Nat) : Int) := by
        rw [hd, Int.natAbs_neg, Int.natAbs_ofNat, mul_neg, Int.neg_tdiv]; rfl
      rw [e1]
      dsimp only
      rw [if_pos]
      constructor <;> omega

theorem parseHex_small (v : Nat) (h : v < 2 ^ 63) : parseHex v = (v : Int) := by
  unfold parseHex
  have e : (2 : Nat) ^ 63 = 9223372036854775808 := by norm_num
  rw [e] at h
  have : min v 9223372036854775807 = v := by omega
  rw [this]
  rfl

/-- For two parsed coordinates below `2^29` the host delta is `3.2` times their
difference, truncated toward zero. -/
theorem hostDelta_parseHex (u v : Nat) (hu : u < 2 ^ 29) (hv : v < 2 ^ 29) :
    hostDelta (parseHex u) (parseHex v) = Int.tdiv (16 * ((u : Int) - v)) 5 := by
  have h63 : (2 : Nat) ^ 29 ≤ 2 ^ 63 := Nat.pow_le_pow_right (by norm_num) (by norm_num)
  rw [parseHex_small u (lt_of_lt_of_le hu h63), parseHex_small v (lt_of_lt_of_le hv h63)]
  apply hostDelta_exact
  have e : (2 : Nat) ^ 29 = 536870912 := by norm_num
  rw [e] at hu hv ⊢
  omega

/-! ## what each protocol line does -/

theorem processLine_newFinger (s : State) (now : Int) (fg : Bool) :
    processLine s now fg Line.newFinger = startDrag (addFinger s) now := by
  simp [processLine, trackingBlock, touchBlock, deviceBlock, Line.newFinger, Line.blank, setCur]

theorem processLine_lift (s : State) (now : Int) (fg : Bool) :
    processLine s now fg Line.lift =
      (recordRelease (endDrag (decFingers s)).1 now, (endDrag (decFingers s)).2) := by
  simp [processLine, trackingBlock, touchBlock, deviceBlock, Line.lift, Line.blank, setCur]

theorem processLine_touchDown (s : State) (now : Int) (fg : Bool) :
    processLine s now fg Line.touchDown = (armTimer (resetTouch s now) now, []) := by
  simp [processLine, trackingBlock, touchBlock, deviceBlock, Line.touchDown, Line.blank, setCur]

theorem processLine_touchUp (s : State) (now : Int) (fg : Bool) :
    processLine s now fg Line.touchUp = (stopTimer s, tap (stopTimer s) now) := by
  simp [processLine, trackingBlock, touchBlock, deviceBlock, Line.touchUp, Line.blank, setCur]

theorem processLine_posX (s : State) (now : Int) (fg : Bool) (v : Nat) :
    processLine s now fg (Line.posX v) = ({ s with curX := parseHex v }, []) := by
  simp [processLine, trackingBlock, touchBlock, deviceBlock, Line.posX, Line.blank, setCur]

theorem processLine_posY (s : State) (now : Int) (fg : Bool) (v : Nat) :
    processLine s now fg (Line.posY v) = ({ s with curY := parseHex v }, []) := by
  simp [processLine, trackingBlock, touchBlock, deviceBlock, Line.posY, Line.blank, setCur]

theorem processLine_syn (s : State) (now : Int) (fg : Bool) :
    processLine s now fg Line.syn = synReport s fg := by
  simp [processLine, trackingBlock, touchBlock, deviceBlock, Line.syn, Line.blank, setCur]

theorem parseHex_ne_zero (v : Nat) (h : v ≠ 0) : parseHex v ≠ 0 := by
  unfold parseHex
  have : min v 9223372036854775807 ≠ 0 := by omega
  intro h0
  exact this (Int.ofNat_eq_zero.mp h0)

theorem startDrag_addFinger_fingers (s : State) (now : Int) :
    (startDrag (addFinger s) now).1.activeFingers = s.activeFingers + 1 := by
  unfold startDrag addFinger
  split <;> rfl

/-! ## fields each statement leaves alone -/

theorem run_append (s : State) (es fs : List Event) :
    run s (es ++ fs) = ((run (run s es).1 fs).1, (run s es).2 ++ (run (run s es).1 fs).2) := by
  induction es generalizing s with
  | nil => simp [run]
  | cons e es ih => simp [run, ih, List.append_assoc]

@[simp] theorem stopTimer_hasMoved (s : State) : (stopTimer s).hasMoved = s.hasMoved := by
  unfold stopTimer; split <;> rfl

@[simp] theorem stopTimer_rightClickDone (s : State) :
    (stopTimer s).rightClickDone = s.rightClickDone := by
  unfold stopTimer; split <;> rfl

@[simp] theorem stopTimer_isDragging (s : State) : (stopTimer s).isDragging = s.isDragging := by
  unfold stopTimer; split <;> rfl

@[simp] theorem stopTimer_activeFingers (s : State) :
    (stopTimer s).activeFingers = s.activeFingers := by
  unfold stopTimer; split <;> rfl

@[simp] theorem stopTimer_touchStartTime (s : State) :
    (stopTimer s).touchStartTime = s.touchStartTime := by
  unfold stopTimer; split <;> rfl

@[simp] theorem stopTimer_scrollAccum (s : State) :
    (stopTimer s).scrollAccum = s.scrollAccum := by
  unfold stopTimer; split <;> rfl

@[simp] theorem stopTimer_curX (s : State) : (stopTimer s).curX = s.curX := by
  unfold stopTimer; split <;> rfl

@[simp] theorem stopTimer_curY (s : State) : (stopTimer s).curY = s.curY := by
  unfold stopTimer; split <;> rfl

@[simp] theorem setCur_hasMoved (s : State) (m : Option (Axis × Nat)) :
    (setCur s m).hasMoved = s.hasMoved := by
  unfold setCur; split <;> rfl

@[simp] theorem setCur_rightClickDone (s : State) (m : Option (Axis × Nat)) :
    (setCur s m).rightClickDone = s.rightClickDone := by
  unfold setCur; split <;> rfl

@[simp] theorem setCur_isDragging (s : State) (m : Option (Axis × Nat)) :
    (setCur s m).isDragging = s.isDragging := by
  unfold setCur; split <;> rfl

@[simp] theorem setCur_activeFingers (s : State) (m : Option (Axis × Nat)) :
    (setCur s m).activeFingers = s.activeFingers := by
  unfold setCur; split <;> rfl

@[simp] theorem setCur_touchStartTime (s : State) (m : Option (Axis × Nat)) :
    (setCur s m).touchStartTime = s.touchStartTime := by
  unfold setCur; split <;> rfl

@[simp] theorem setCur_timers (s : State) (m : Option (Axis × Nat)) :
    (setCur s m).timers = s.timers := by
  unfold setCur; split <;> rfl

@[simp] theorem setCur_rightClickTimer (s : State) (m : Option (Axis × Nat)) :
    (setCur s m).rightClickTimer = s.rightClickTimer := by
  unfold setCur; split <;> rfl

@[simp] theorem setCur_nextTimer (s : State) (m : Option (Axis × Nat)) :
    (setCur s m).nextTimer = s.nextTimer := by
  unfold setCur; split <;> rfl

theorem scrollOrMove_fields (s : State) (dx dy : Int) :
    (scrollOrMove s dx dy).1.hasMoved = s.hasMoved ∧
    (scrollOrMove s dx dy).1.rightClickDone = s.rightClickDone ∧
    (scrollOrMove s dx dy).1.isDragging = s.isDragging ∧
    (scrollOrMove s dx dy).1.activeFingers = s.activeFingers ∧
    (scrollOrMove s dx dy).1.touchStartTime = s.touchStartTime ∧
    (scrollOrMove s dx dy).1.timers = s.timers ∧
    (scrollOrMove s dx dy).1.rightClickTimer = s.rightClickTimer ∧
    (scrollOrMove s dx dy).1.nextTimer = s.nextTimer ∧
    (scrollOrMove s dx dy).1.curX = s.curX ∧
    (scrollOrMove s dx dy).1.curY = s.curY := by
  unfold scrollOrMove
  split
  · dsimp only
    split <;> simp
  · simp

/-- A sync-report leaves the touch bookkeeping alone, never clears `hasMoved`,
and calls the driver only when it sets `hasMoved`. -/
theorem synReport_fields (s : State) (fg : Bool) :
    (synReport s fg).1.rightClickDone = s.rightClickDone ∧
    (synReport s fg).1.isDragging = s.isDragging ∧
    (synReport s fg).1.activeFingers = s.activeFingers ∧
    (synReport s fg).1.touchStartTime = s.touchStartTime ∧
    (s.hasMoved = true → (synReport s fg).1.hasMoved = true) ∧
    ((synReport s fg).1.hasMoved = false → (synReport s fg).2 = []) := by
  unfold synReport
  split
  · simp
  · unfold motion setBaseline
    split
    · split
      · have h := scrollOrMove_fields (stopTimer { s with hasMoved := true })
          (hostDelta s.lastY s.curY) (hostDelta s.curX s.lastX)
        simp only [moved]
        simp [h]
      · simp
    · simp

theorem processLine_sample (s : State) (now : Int) (fg : Bool) (l : Line)
    (h : l.isSample = true) : processLine s now fg l = deviceBlock s fg l := by
  simp only [Line.isSample, Bool.and_eq_true, Bool.not_eq_true'] at h
  simp [processLine, trackingBlock, touchBlock, h.1, h.2]

theorem deviceBlock_fields (s : State) (fg : Bool) (l : Line) :
    (deviceBlock s fg l).1.rightClickDone = s.rightClickDone ∧
    (deviceBlock s fg l).1.isDragging = s.isDragging ∧
    (deviceBlock s fg l).1.activeFingers = s.activeFingers ∧
    (deviceBlock s fg l).1.touchStartTime = s.touchStartTime ∧
    (s.hasMoved = true → (deviceBlock s fg l).1.hasMoved = true) ∧
    ((deviceBlock s fg l).1.hasMoved = false → (deviceBlock s fg l).2 = []) := by
  unfold deviceBlock
  split
  · split
    · have h := synReport_fields (setCur s l.posMatch) fg
      simpa using h
    · simp
  · simp

theorem step_sample_fields (s : State) (e : Event) (h : e.isSample = true) :
    (step s e).1.rightClickDone = s.rightClickDone ∧
    (step s e).1.isDragging = s.isDragging ∧
    (step s e).1.activeFingers = s.activeFingers ∧
    (step s e).1.touchStartTime = s.touchStartTime ∧
    (s.hasMoved = true → (step s e).1.hasMoved = true) ∧
    ((step s e).1.hasMoved = false → (step s e).2 = []) := by
  cases e with
  | line now fg l =>
    simp only [Event.isSample] at h
    simp only [step, processLine_sample s now fg l h]
    exact deviceBlock_fields s fg l
  | timerFire now id => simp [Event.isSample] at h

theorem run_samples_moved (es : List Event) (s : State)
    (hes : ∀ e ∈ es, e.isSample = true) (hm : s.hasMoved = true) :
    (run s es).1.hasMoved = true := by
  induction es generalizing s with
  | nil => simpa [run] using hm
  | cons e es ih =>
    simp only [run]
    exact ih _ (fun x hx => hes x (List.mem_cons_of_mem _ hx))
      ((step_sample_fields s e (hes e (List.mem_cons_self _ _))).2.2.2.2.1 hm)

/-- Position samples and sync-reports that leave `hasMoved` false at the end
have called the driver not once, and have left the touch bookkeeping alone. -/
theorem run_samples_still (es : List Event) (s : State)
    (hes : ∀ e ∈ es, e.isSample = true) (hstill : (run s es).1.hasMoved = false) :
    (run s es).2 = [] ∧ (run s es).1.rightClickDone = s.rightClickDone ∧
    (run s es).1.isDragging = s.isDragging ∧
    (run s es).1.activeFingers = s.activeFingers ∧
    (run s es).1.touchStartTime = s.touchStartTime := by
  induction es generalizing s with
  | nil => simp [run]
  | cons e es ih =>
    have he := step_sample_fields s e (hes e (List.mem_cons_self _ _))
    have hes2 : ∀ x ∈ es, x.isSample = true := fun x hx => hes x (List.mem_cons_of_mem _ hx)
    simp only [run] at hstill ⊢
    have hm : (step s e).1.hasMoved = false := by
      by_contra hc
      have ht : (step s e).1.hasMoved = true := by simpa using hc
      have := run_samples_moved es _ hes2 ht
      rw [this] at hstill
      exact Bool.noConfusion hstill
    have h2 := ih (step s e).1 hes2 hstill
    rw [he.2.2.2.2.2 hm, h2.1, h2.2.1, h2.2.2.1, h2.2.2.2.1, h2.2.2.2.2,
      he.1, he.2.1, he.2.2.1, he.2.2.2.1]
    simp

/-! ## the three blocks of the loop body on an arbitrary line -/

theorem trackingBlock_keeps (s : State) (now : Int) (l : Line) :
    (trackingBlock s now l).1.hasMoved = s.hasMoved ∧
    (trackingBlock s now l).1.rightClickDone = s.rightClickDone ∧
    (trackingBlock s now l).1.touchStartTime = s.touchStartTime ∧
    (trackingBlock s now l).1.timers = s.timers ∧
    (trackingBlock s now l).1.rightClickTimer = s.rightClickTimer ∧
    (trackingBlock s now l).1.nextTimer = s.nextTimer := by
  unfold trackingBlock
  split
  · split
    · unfold recordRelease endDrag decFingers
      split <;> split <;> simp_all
    · unfold startDrag addFinger
      split <;> simp
  · simp

theorem trackingBlock_calls (s : State) (now : Int) (l : Line) :
    ∀ a ∈ (trackingBlock s now l).2, a.isRight = false := by
  unfold trackingBlock
  split
  · split
    · unfold endDrag
      split <;> simp [Action.isRight]
    · unfold startDrag
      split <;> simp [Action.isRight]
  · simp

theorem touchBlock_keeps (s : State) (now : Int) (l : Line) :
    (touchBlock s now l).1.isDragging = s.isDragging ∧
    (touchBlock s now l).1.activeFingers = s.activeFingers ∧
    (s.rightClickDone = false → (touchBlock s now l).1.rightClickDone = false) ∧
    (l.isTouchDown = false →
      (touchBlock s now l).1.hasMoved = s.hasMoved ∧
      (touchBlock s now l).1.rightClickDone = s.rightClickDone) := by
  unfold touchBlock Line.isTouchDown
  split
  · split
    · unfold armTimer resetTouch
      split <;> simp_all
    · split <;> simp_all
  · simp

theorem touchBlock_calls (s : State) (now : Int) (l : Line) :
    (touchBlock s now l).2 = [] ∨
      ((touchBlock s now l).2 = [Action.Button Btn.left true, Action.Button Btn.left false] ∧
        s.isDragging = false ∧ s.hasMoved = false ∧ s.rightClickDone = false) := by
  unfold touchBlock
  split
  · split
    · simp
    · split
      · unfold tap
        split
        · rename_i h
          simp only [stopTimer_isDragging, stopTimer_hasMoved, stopTimer_rightClickDone] at h
          exact Or.inr ⟨rfl, h.1, h.2.1, h.2.2.1⟩
        · exact Or.inl rfl
      · simp
  · simp

theorem scrollOrMove_calls (s : State) (dx dy : Int) :
    ∀ a ∈ (scrollOrMove s dx dy).2, a.isRight = false ∧ a.isLeftUp = false := by
  unfold scrollOrMove
  split
  · dsimp only
    split <;> simp [Action.isRight, Action.isLeftUp]
  · simp [Action.isRight, Action.isLeftUp]

theorem deviceBlock_calls (s : State) (fg : Bool) (l : Line) :
    ∀ a ∈ (deviceBlock s fg l).2, a.isRight = false ∧ a.isLeftUp = false := by
  unfold deviceBlock
  split
  · split
    · unfold synReport
      split
      · simp
      · unfold motion
        split
        · split
          · exact scrollOrMove_calls _ _ _
          · simp
        · simp
    · simp
  · simp

/-- A line never calls `driver.Button("right", _)`. -/
theorem processLine_calls (s : State) (now : Int) (fg : Bool) (l : Line) :
    ∀ a ∈ (processLine s now fg l).2, a.isRight = false := by
  intro a ha
  simp only [processLine, List.mem_append] at ha
  rcases ha with (ha | ha) | ha
  · exact trackingBlock_calls _ _ _ a ha
  · rcases touchBlock_calls (trackingBlock s now l).1 now l with h | h
    · rw [h] at ha; simp at ha
    · rw [h.1] at ha
      simp only [List.mem_cons, List.mem_singleton, List.not_mem_nil, or_false] at ha
      rcases ha with rfl | rfl <;> rfl
  · exact (deviceBlock_calls _ _ _ a ha).1

/-- A line never sets `rightClickDone`. -/
theorem processLine_rightClickDone_false (s : State) (now : Int) (fg : Bool) (l : Line)
    (h : s.rightClickDone = false) : (processLine s now fg l).1.rightClickDone = false := by
  simp only [processLine]
  rw [(deviceBlock_fields _ fg l).1]
  apply (touchBlock_keeps _ now l).2.2.1
  rw [(trackingBlock_keeps s now l).2.1]
  exact h

/-- Between two touch-button DOWN lines a line changes neither `rightClickDone`
nor a set `hasMoved`. -/
theorem processLine_touch_flags (s : State) (now : Int) (fg : Bool) (l : Line)
    (hl : l.isTouchDown = false) :
    (processLine s now fg l).1.rightClickDone = s.rightClickDone ∧
    (s.hasMoved = true → (processLine s now fg l).1.hasMoved = true) := by
  simp only [processLine]
  have hT := trackingBlock_keeps s now l
  have hB := (touchBlock_keeps (trackingBlock s now l).1 now l).2.2.2 hl
  have hD := deviceBlock_fields (touchBlock (trackingBlock s now l).1 now l).1 fg l
  refine ⟨by rw [hD.1, hB.2, hT.2.1], fun hm => hD.2.2.2.2.1 ?_⟩
  rw [hB.1, hT.1]
  exact hm

theorem run_lines_rightClickDone_false (es : List Event) (s : State)
    (hes : ∀ e ∈ es, e.isLine = true) (h : s.rightClickDone = false) :
    (run s es).1.rightClickDone = false := by
  induction es generalizing s with
  | nil => simpa [run] using h
  | cons e es ih =>
    simp only [run]
    apply ih _ (fun x hx => hes x (List.mem_cons_of_mem _ hx))
    cases e with
    | line now fg l => exact processLine_rightClickDone_false s now fg l h
    | timerFire now id =>
      have := hes _ (List.mem_cons_self _ _)
      simp [Event.isLine] at this

/-- The callback does nothing once `rightClickDone` or `hasMoved` is set, and
never touches `hasMoved`, `isDragging` or `activeFingers`. -/
theorem timerFire_fields (s : State) (now : Int) (id : Nat) :
    (step s (Event.timerFire now id)).1.hasMoved = s.hasMoved ∧
    (step s (Event.timerFire now id)).1.isDragging = s.isDragging ∧
    (step s (Event.timerFire now id)).1.activeFingers = s.activeFingers ∧
    (s.rightClickDone = true → (step s (Event.timerFire now id)).1.rightClickDone = true) ∧
    (s.rightClickDone = true ∨ s.hasMoved = true → (step s (Event.timerFire now id)).2 = []) ∧
    (∀ a ∈ (step s (Event.timerFire now id)).2, a.isLeftUp = false) := by
  unfold step longPress
  dsimp only
  split
  · split
    · rename_i h
      simp [h.1, h.2.1, Action.isLeftUp]
    · simp
  · simp

/-! ## the coordinates stay in the range of a 64-bit `int` -/

theorem parseHex_range (v : Nat) : 0 ≤ parseHex v ∧ parseHex v ≤ 9223372036854775807 := by
  unfold parseHex
  have h : min v 9223372036854775807 ≤ 9223372036854775807 := Nat.min_le_right _ _
  constructor
  · exact Int.ofNat_nonneg _
  · exact Int.ofNat_le.mpr h

theorem trackingBlock_coords (s : State) (now : Int) (l : Line) (h : s.coordsInRange) :
    (trackingBlock s now l).1.coordsInRange := by
  unfold State.coordsInRange at h ⊢
  unfold trackingBlock
  split
  · split
    · unfold recordRelease endDrag decFingers
      split <;> split <;> simp_all
    · unfold startDrag addFinger
      split <;> simp_all
  · exact h

theorem touchBlock_coords (s : State) (now : Int) (l : Line) (h : s.coordsInRange) :
    (touchBlock s now l).1.coordsInRange := by
  unfold State.coordsInRange at h ⊢
  unfold touchBlock
  split
  · split
    · unfold armTimer resetTouch
      split <;> simp_all
    · split
      · unfold stopTimer
        split <;> simp_all
      · exact h
  · exact h

theorem setCur_coords (s : State) (m : Option (Axis × Nat)) (h : s.coordsInRange) :
    (setCur s m).coordsInRange := by
  unfold State.coordsInRange at h ⊢
  unfold setCur
  split
  · have := parseHex_range ‹Nat›
    simp_all
  · have := parseHex_range ‹Nat›
    simp_all
  · exact h

theorem synReport_coords (s : State) (fg : Bool) (h : s.coordsInRange) :
    (synReport s fg).1.coordsInRange := by
  have hS := scrollOrMove_fields (stopTimer { s with hasMoved := true })
    (hostDelta s.lastY s.curY) (hostDelta s.curX s.lastX)
  unfold State.coordsInRange at h ⊢
  unfold synReport setBaseline motion moved
  split
  · simp_all
  · split
    · split
      · simp only [hS.2.2.2.2.2.2.2.2.1, hS.2.2.2.2.2.2.2.2.2, stopTimer_curX, stopTimer_curY]
        exact ⟨h.2.2.1, h.2.2.2, h.2.2.1, h.2.2.2⟩
      · exact ⟨h.2.2.1, h.2.2.2, h.2.2.1, h.2.2.2⟩
    · exact ⟨h.2.2.1, h.2.2.2, h.2.2.1, h.2.2.2⟩

theorem step_coords (s : State) (e : Event) (h : s.coordsInRange) :
    (step s e).1.coordsInRange := by
  cases e with
  | line now fg l =>
    simp only [step, processLine]
    have h1 := touchBlock_coords _ now l (trackingBlock_coords s now l h)
    unfold deviceBlock
    split
    · split
      · exact synReport_coords _ fg (setCur_coords _ _ h1)
      · exact setCur_coords _ _ h1
    · exact h1
  | timerFire now id =>
    unfold State.coordsInRange at h ⊢
    unfold step longPress
    dsimp only
    split
    · split <;> exact h
    · exact h

/-- In every state reached from the initial one the four coordinates lie in
`[0, 2^63)`: the subtractions `lastY-curY` and `curX-lastX` do not overflow. -/
theorem run_coords (es : List Event) (s : State) (h : s.coordsInRange) :
    (run s es).1.coordsInRange := by
  induction es generalizing s with
  | nil => exact h
  | cons e es ih => exact ih _ (step_coords s e h)

theorem init_coords : State.init.coordsInRange := by
  unfold State.coordsInRange
  decide

/-! ## C1 -/

/-- C1: with one finger down and the foreground flag set, the first sync-report
after a new finger emits nothing and only adopts the first sample as baseline;
the second emits exactly `Move dx dy` with `dx = int32(float64(y0-y1) * 3.2)`
and `dy = int32(float64(x1-x0) * 3.2)` unless both are zero, and nothing else.
For coordinates below `2^29` these are the exact products `3.2 * (y0-y1)` and
`3.2 * (x1-x0)` truncated toward zero. -/
theorem C1_first_two_samples (s : State) (t0 t1 t2 t3 t4 t5 t6 : Int)
    (f0 f1 f2 f4 f5 : Bool) (x0 y0 x1 y1 : Nat) (hone : s.activeFingers = 0)
    (hx0 : x0 ≠ 0) (hy0 : y0 ≠ 0) (hx1 : x1 ≠ 0) (hy1 : y1 ≠ 0) :
    let s1 := (step s (Event.line t0 f0 Line.newFinger)).1
    let r1 := run s1 [Event.line t1 f1 (Line.posX x0), Event.line t2 f2 (Line.posY y0),
      Event.line t3 true Line.syn]
    let r2 := run r1.1 [Event.line t4 f4 (Line.posX x1), Event.line t5 f5 (Line.posY y1),
      Event.line t6 true Line.syn]
    let dx := F64.toInt32 (F64.mul (F64.ofInt (parseHex y0 - parseHex y1)) sensitivity)
    let dy := F64.toInt32 (F64.mul (F64.ofInt (parseHex x1 - parseHex x0)) sensitivity)
    s1.activeFingers = 1 ∧
    r1.2 = [] ∧
    r1.1 = { s1 with curX := parseHex x0, curY := parseHex y0,
                     lastX := parseHex x0, lastY := parseHex y0 } ∧
    r2.2 = (if dx ≠ 0 ∨ dy ≠ 0 then [Action.Move dx dy] else []) ∧
    (x0 < 2 ^ 29 → y0 < 2 ^ 29 → x1 < 2 ^ 29 → y1 < 2 ^ 29 →
      dx = Int.tdiv (16 * ((y0 : Int) - y1)) 5 ∧ dy = Int.tdiv (16 * ((x1 : Int) - x0)) 5) := by
  intro s1 r1 r2 dx dy
  have hX0 := parseHex_ne_zero x0 hx0
  have hY0 := parseHex_ne_zero y0 hy0
  have hX1 := parseHex_ne_zero x1 hx1
  have hY1 := parseHex_ne_zero y1 hy1
  have hs1 : s1 = (startDrag (addFinger s) t0).1 := by
    simp [s1, step, processLine_newFinger]
  have hf : s1.activeFingers = 1 := by
    rw [hs1, startDrag_addFinger_fingers, hone]; rfl
  have hlx : s1.lastX = 0 := by
    rw [hs1]; unfold startDrag addFinger; split <;> rfl
  have hly : s1.lastY = 0 := by
    rw [hs1]; unfold startDrag addFinger; split <;> rfl
  have hr1 : r1 = (State.mk (parseHex x0) (parseHex y0) (parseHex x0) (parseHex y0)
      s1.touchStartTime s1.lastReleaseTime s1.hasMoved s1.rightClickDone s1.isDragging
      s1.lastTapWasPure s1.rightClickTimer s1.scrollAccum s1.activeFingers s1.timers
      s1.nextTimer, []) := by
    simp [r1, run, step, processLine_posX, processLine_posY, processLine_syn, synReport,
      motion, setBaseline, hlx]
  refine ⟨hf, by rw [hr1], by rw [hr1], ?_,
    fun h1 h2 h3 h4 => ⟨hostDelta_parseHex y0 y1 h2 h4, hostDelta_parseHex x1 x0 h3 h1⟩⟩
  have hstop : ∀ u : State, (stopTimer u).activeFingers = u.activeFingers := by
    intro u; unfold stopTimer; split <;> rfl
  simp only [r2, hr1, run, step, processLine_posX, processLine_posY, processLine_syn,
    synReport, motion, setBaseline, moved, scrollOrMove, hostDelta, List.append_nil,
    List.nil_append]
  simp only [hstop, hf, hX0, hY0, hX1, hY1, ne_eq, not_false_eq_true, and_self, if_true,
    Bool.true_eq_false, if_false]
  by_cases h : dx ≠ 0 ∨ dy ≠ 0
  · simp only [dx, dy] at h
    rw [if_pos h, if_pos h]
    simp
  · simp only [dx, dy] at h
    rw [if_neg h, if_neg h]

/-- Witness of C1: from the initial state, the samples `(0x64, 0x64)` and then
`(0x6E, 0x64)` produce exactly `Move 0 32` at the second sync-report. -/
theorem C1_first_two_samples_witness :
    (run (run (step State.init (Event.line 0 true Line.newFinger)).1
        [Event.line 1 true (Line.posX 0x64), Event.line 2 true (Line.posY 0x64),
          Event.line 3 true Line.syn]).1
      [Event.line 4 true (Line.posX 0x6E), Event.line 5 true (Line.posY 0x64),
        Event.line 6 true Line.syn]).2 = [Action.Move 0 32] :=
  (C1_first_two_samples State.init 0 1 2 3 4 5 6 true true true true true 0x64 0x64 0x6E 0x64
    rfl (by decide) (by decide) (by decide) (by decide)).2.2.2.1.trans (by decide)

/-! ## C2 -/

/-- C2: from a state that is not dragging and has no pure tap recorded (the
initial state in particular), a new finger, touch-button DOWN at `t0`, position
samples and sync-reports without movement, the finger lift and touch-button UP
at `t1` with `t1 - t0` under 200 ms make exactly the driver calls
`Button("left", true)`, `Button("left", false)`.  In every state, touch-button
UP makes exactly these two calls if `isDragging`, `hasMoved` and
`rightClickDone` are all false and less than 200 ms have passed since the
touch-down, and makes no call otherwise. -/
theorem C2_tap (s : State) (ta t0 tl t1 : Int) (fa f0 fl f1 : Bool) (mids : List Event)
    (hdrag : s.isDragging = false) (hpure : s.lastTapWasPure = false)
    (hmids : ∀ e ∈ mids, e.isSample = true)
    (hstill : (run (run s [Event.line ta fa Line.newFinger,
      Event.line t0 f0 Line.touchDown]).1 mids).1.hasMoved = false)
    (htap : t1 - t0 < tapTimeout) :
    (run s ([Event.line ta fa Line.newFinger, Event.line t0 f0 Line.touchDown] ++ mids ++
        [Event.line tl fl Line.lift, Event.line t1 f1 Line.touchUp])).2
      = [Action.Button Btn.left true, Action.Button Btn.left false] ∧
    ∀ (u : State) (now : Int) (fg : Bool),
      (step u (Event.line now fg Line.touchUp)).2 =
        if u.isDragging = false ∧ u.hasMoved = false ∧ u.rightClickDone = false
            ∧ since u.touchStartTime now < tapTimeout then
          [Action.Button Btn.left true, Action.Button Btn.left false]
        else [] := by
  constructor
  · have hA : (run s [Event.line ta fa Line.newFinger, Event.line t0 f0 Line.touchDown]).2 = []
        ∧ (run s [Event.line ta fa Line.newFinger, Event.line t0 f0 Line.touchDown]).1.isDragging
            = false
        ∧ (run s [Event.line ta fa Line.newFinger,
            Event.line t0 f0 Line.touchDown]).1.rightClickDone = false
        ∧ (run s [Event.line ta fa Line.newFinger,
            Event.line t0 f0 Line.touchDown]).1.touchStartTime = some t0 := by
      simp [run, step, processLine_newFinger, processLine_touchDown, startDrag, addFinger,
        armTimer, resetTouch, hdrag, hpure]
    rw [run_append, run_append]
    generalize run s [Event.line ta fa Line.newFinger, Event.line t0 f0 Line.touchDown] = rA
      at hA hstill ⊢
    have hM := run_samples_still mids rA.1 hmids hstill
    generalize run rA.1 mids = rM at hM hstill ⊢
    obtain ⟨hM2, hMr, hMd, -, hMt⟩ := hM
    have hd : (decFingers rM.1).isDragging = false := by
      unfold decFingers; split <;> simp [hMd, hA.2.1]
    have hm : (decFingers rM.1).hasMoved = false := by
      unfold decFingers; split <;> simp [hstill]
    have hr : (decFingers rM.1).rightClickDone = false := by
      unfold decFingers; split <;> simp [hMr, hA.2.2.1]
    have ht : (decFingers rM.1).touchStartTime = some t0 := by
      unfold decFingers; split <;> simp [hMt, hA.2.2.2]
    simp [run, step, processLine_lift, processLine_touchUp, hA.1, hM2, endDrag, hd,
      recordRelease, tap, hm, hr, ht, since, htap]
  · intro u now fg
    simp [step, processLine_touchUp, tap]

/-- Witness of C2: from the initial state, a tap of 100 ms with one resting
sample in between. -/
theorem C2_tap_witness :
    (run State.init ([Event.line 0 true Line.newFinger, Event.line 0 true Line.touchDown] ++
        [Event.line 10 true (Line.posX 100), Event.line 10 true (Line.posY 100),
          Event.line 10 true Line.syn] ++
        [Event.line 100000000 true Line.lift, Event.line 100000000 true Line.touchUp])).2
      = [Action.Button Btn.left true, Action.Button Btn.left false] :=
  (C2_tap State.init 0 0 100000000 100000000 true true true true
    [Event.line 10 true (Line.posX 100), Event.line 10 true (Line.posY 100),
      Event.line 10 true Line.syn] rfl rfl (by decide) (by decide) (by decide)).1

/-! ## movement since the last touch-button DOWN -/

theorem touchBlock_hasMoved (s : State) (now : Int) (l : Line) :
    (touchBlock s now l).1.hasMoved = (!l.isTouchDown && s.hasMoved) := by
  unfold touchBlock Line.isTouchDown
  split
  · split
    · unfold armTimer resetTouch
      split <;> simp_all
    · split <;> simp_all
  · simp_all

theorem deviceBlock_hasMoved (s : State) (fg : Bool) (l : Line) :
    (deviceBlock s fg l).1.hasMoved =
      (s.hasMoved || (l.hasTouchDevice && l.hasSynReport && fg &&
        decide ((setCur s l.posMatch).lastX ≠ 0 ∧ (setCur s l.posMatch).lastY ≠ 0 ∧
          (setCur s l.posMatch).curX ≠ 0 ∧ (setCur s l.posMatch).curY ≠ 0 ∧
          (hostDelta (setCur s l.posMatch).lastY (setCur s l.posMatch).curY ≠ 0 ∨
            hostDelta (setCur s l.posMatch).curX (setCur s l.posMatch).lastX ≠ 0)))) := by
  unfold deviceBlock
  split
  · rename_i hdev
    split
    · rename_i hsyn
      have hc : (setCur s l.posMatch).hasMoved = s.hasMoved := setCur_hasMoved s l.posMatch
      generalize setCur s l.posMatch = c at hc ⊢
      have hS := scrollOrMove_fields (stopTimer { c with hasMoved := true })
        (hostDelta c.lastY c.curY) (hostDelta c.curX c.lastX)
      unfold synReport setBaseline motion moved
      split
      · rename_i hfg
        simp [hfg, hc]
      · rename_i hfg
        have hfg2 : fg = true := by simpa using hfg
        split
        · rename_i hb
          split
          · rename_i hd
            simp only [hS.1, stopTimer_hasMoved]
            simp [hdev, hsyn, hfg2, hb, hd]
          · rename_i hd
            simp [hc, hd]
        · rename_i hb
          simp only [hc]
          have : ¬ (c.lastX ≠ 0 ∧ c.lastY ≠ 0 ∧ c.curX ≠ 0 ∧ c.curY ≠ 0 ∧
              (hostDelta c.lastY c.curY ≠ 0 ∨ hostDelta c.curX c.lastX ≠ 0)) :=
            fun h => hb ⟨h.1, h.2.1, h.2.2.1, h.2.2.2.1⟩
          simp [this]
    · simp_all
  · simp_all

/-- After one event `hasMoved` is set exactly when the event is movement, or
`hasMoved` was set and the event is not a touch-button DOWN line. -/
theorem step_hasMoved (s : State) (e : Event) :
    (step s e).1.hasMoved = ((!e.isTouchDown && s.hasMoved) || e.moves s) := by
  cases e with
  | line now fg l =>
    simp only [step, processLine, Event.isTouchDown, Event.moves]
    rw [deviceBlock_hasMoved, touchBlock_hasMoved, (trackingBlock_keeps s now l).1]
  | timerFire now id =>
    rw [(timerFire_fields s now id).1]
    simp [Event.isTouchDown, Event.moves]

/-- The variable `hasMoved` says whether there has been movement since the last
touch-button DOWN. -/
theorem run_hasMoved_eq (es : List Event) (s : State) :
    (run s es).1.hasMoved = movedAfter s.hasMoved s es := by
  induction es generalizing s with
  | nil => rfl
  | cons e es ih =>
    simp only [run, movedAfter]
    rw [ih, step_hasMoved]

theorem touchBlock_release (u : State) (now : Int) (l : Line) :
    (touchBlock u now l).1.lastTapWasPure = u.lastTapWasPure ∧
    (touchBlock u now l).1.lastReleaseTime = u.lastReleaseTime := by
  unfold touchBlock
  split
  · split
    · unfold armTimer resetTouch
      split <;> simp
    · split
      · unfold stopTimer
        split <;> simp
      · simp
  · simp

theorem deviceBlock_release (u : State) (fg : Bool) (l : Line) :
    (deviceBlock u fg l).1.lastTapWasPure = u.lastTapWasPure ∧
    (deviceBlock u fg l).1.lastReleaseTime = u.lastReleaseTime := by
  have hc : (setCur u l.posMatch).lastTapWasPure = u.lastTapWasPure ∧
      (setCur u l.posMatch).lastReleaseTime = u.lastReleaseTime := by
    unfold setCur; split <;> simp
  unfold deviceBlock
  split
  · split
    · generalize setCur u l.posMatch = c at hc ⊢
      unfold synReport setBaseline motion moved
      split
      · simpa using hc
      · split
        · split
          · unfold scrollOrMove stopTimer
            dsimp only
            split <;> split <;> (try split) <;> simpa using hc
          · simpa using hc
        · simpa using hc
    · exact hc
  · simp

theorem timerFire_release (s : State) (now : Int) (id : Nat) :
    (step s (Event.timerFire now id)).1.lastTapWasPure = s.lastTapWasPure ∧
    (step s (Event.timerFire now id)).1.lastReleaseTime = s.lastReleaseTime := by
  constructor
  · simp only [step, longPress]
    split
    · split <;> rfl
    · rfl
  · simp only [step, longPress]
    split
    · split <;> rfl
    · rfl

/-- An event other than a tracking-id line leaves what the last finger lift
recorded, and `isDragging`, as they are. -/
theorem step_release_fields (s : State) (e : Event) (he : e.isTracking = false) :
    (step s e).1.lastTapWasPure = s.lastTapWasPure ∧
    (step s e).1.lastReleaseTime = s.lastReleaseTime ∧
    (step s e).1.isDragging = s.isDragging := by
  cases e with
  | line now fg l =>
    simp only [Event.isTracking] at he
    have hT : trackingBlock s now l = (s, []) := by
      simp [trackingBlock, he]
    simp only [step, processLine, hT]
    refine ⟨by rw [(deviceBlock_release _ fg l).1, (touchBlock_release _ now l).1],
      by rw [(deviceBlock_release _ fg l).2, (touchBlock_release _ now l).2], ?_⟩
    rw [(deviceBlock_fields _ fg l).2.1, (touchBlock_keeps _ now l).1]
  | timerFire now id =>
    exact ⟨(timerFire_release s now id).1, (timerFire_release s now id).2,
      (timerFire_fields s now id).2.1⟩

/-- Only a finger lift writes `lastTapWasPure`. -/
theorem step_lastTapWasPure (s : State) (e : Event) (he : e.isLift = false) :
    (step s e).1.lastTapWasPure = s.lastTapWasPure := by
  cases e with
  | line now fg l =>
    simp only [Event.isLift] at he
    have hT : (trackingBlock s now l).1.lastTapWasPure = s.lastTapWasPure := by
      unfold trackingBlock
      split
      · split
        · rename_i h1 h2
          simp [Line.isLift, h1, h2] at he
        · unfold startDrag addFinger
          split <;> rfl
      · rfl
    simp only [step, processLine]
    rw [(deviceBlock_release _ fg l).1, (touchBlock_release _ now l).1, hT]
  | timerFire now id => exact (timerFire_release s now id).1

theorem run_lastTapWasPure (es : List Event) (s : State) (hes : ∀ e ∈ es, e.isLift = false) :
    (run s es).1.lastTapWasPure = s.lastTapWasPure := by
  induction es generalizing s with
  | nil => rfl
  | cons e es ih =>
    simp only [run]
    rw [ih _ (fun x hx => hes x (List.mem_cons_of_mem _ hx)),
      step_lastTapWasPure s e (hes e (List.mem_cons_self _ _))]

theorem run_release_fields (es : List Event) (s : State)
    (hes : ∀ e ∈ es, e.isTracking = false) :
    (run s es).1.lastTapWasPure = s.lastTapWasPure ∧
    (run s es).1.lastReleaseTime = s.lastReleaseTime ∧
    (run s es).1.isDragging = s.isDragging := by
  induction es generalizing s with
  | nil => exact ⟨rfl, rfl, rfl⟩
  | cons e es ih =>
    have h1 := step_release_fields s e (hes e (List.mem_cons_self _ _))
    have h2 := ih (step s e).1 (fun x hx => hes x (List.mem_cons_of_mem _ hx))
    simp only [run]
    exact ⟨h2.1.trans h1.1, h2.2.1.trans h1.2.1, h2.2.2.trans h1.2.2⟩

/-- What a line does to `activeFingers`: a lift takes one off unless the count
is not positive, any other tracking-id line adds one, every other line leaves
it alone. -/
theorem processLine_activeFingers (s : State) (now : Int) (fg : Bool) (l : Line) :
    (processLine s now fg l).1.activeFingers =
      if l.hasTrackingId = true then
        if l.hasFfffffff = true then
          if s.activeFingers > 0 then s.activeFingers - 1 else s.activeFingers
        else s.activeFingers + 1
      else s.activeFingers := by
  simp only [processLine]
  rw [(deviceBlock_fields _ fg l).2.2.1, (touchBlock_keeps _ now l).2.1]
  unfold trackingBlock
  split
  · split
    · unfold recordRelease endDrag decFingers
      split <;> split <;> simp_all
    · unfold startDrag addFinger
      split <;> simp
  · rfl

/-- The variable `activeFingers` is the number of fingers counted on the
lines. -/
theorem run_fingers_eq (es : List Event) (s : State) :
    (run s es).1.activeFingers = fingersAfter s.activeFingers es := by
  induction es generalizing s with
  | nil => rfl
  | cons e es ih =>
    cases e with
    | line now fg l =>
      simp only [run, fingersAfter]
      rw [ih, step, processLine_activeFingers]
    | timerFire now id =>
      simp only [run, fingersAfter]
      rw [ih, (timerFire_fields s now id).2.2.1]

/-- What a finger lift records: the release was a pure tap exactly when
`hasMoved` was false and no finger is left; the release time; and no drag. -/
theorem lift_records (s : State) (r : Int) (fr : Bool) :
    (step s (Event.line r fr Line.lift)).1.lastTapWasPure =
      (!s.hasMoved && decide ((step s (Event.line r fr Line.lift)).1.activeFingers = 0)) ∧
    (step s (Event.line r fr Line.lift)).1.lastReleaseTime = some r ∧
    (step s (Event.line r fr Line.lift)).1.isDragging = false := by
  simp only [step, processLine_lift, recordRelease, endDrag, decFingers]
  split <;> split <;> simp_all

/-! ## C3 -/

theorem stopTimer_timers (s : State) : List.Sublist (stopTimer s).timers s.timers := by
  unfold stopTimer
  split
  · exact List.Sublist.refl _
  · exact List.filter_sublist _

/-- A line other than a touch-button DOWN arms no timer. -/
theorem processLine_timers (s : State) (now : Int) (fg : Bool) (l : Line)
    (hl : l.isTouchDown = false) :
    List.Sublist (processLine s now fg l).1.timers s.timers := by
  have hT := (trackingBlock_keeps s now l).2.2.2.1
  have hB : List.Sublist (touchBlock (trackingBlock s now l).1 now l).1.timers
      (trackingBlock s now l).1.timers := by
    unfold touchBlock
    split
    · split
      · rename_i h1 h2
        simp [Line.isTouchDown, h1, h2] at hl
      · split
        · exact stopTimer_timers _
        · exact List.Sublist.refl _
    · exact List.Sublist.refl _
  have hD : ∀ u : State, List.Sublist (deviceBlock u fg l).1.timers u.timers := by
    intro u
    unfold deviceBlock
    split
    · split
      · unfold synReport setBaseline motion moved
        split
        · simp
        · split
          · split
            · have hS := scrollOrMove_fields (stopTimer { setCur u l.posMatch with hasMoved := true })
                (hostDelta (setCur u l.posMatch).lastY (setCur u l.posMatch).curY)
                (hostDelta (setCur u l.posMatch).curX (setCur u l.posMatch).lastX)
              simp only [hS.2.2.2.2.2.1]
              have := stopTimer_timers { setCur u l.posMatch with hasMoved := true }
              simpa using this
            · simp
          · simp
      · simp
    · exact List.Sublist.refl _
  simp only [processLine]
  rw [← hT]
  exact (hD _).trans hB

theorem sublist_single {α : Type} (l : List α) (a : α) (h : List.Sublist l [a]) :
    l = [] ∨ l = [a] := by
  cases h with
  | cons _ h2 => exact Or.inl (List.eq_nil_of_sublist_nil h2)
  | cons₂ _ h2 => exact Or.inr (by rw [List.eq_nil_of_sublist_nil h2])

/-- With a single timer `(k, d)` outstanding and `rightClickDone` false, or no
timer outstanding at all, the same holds after any event other than a
touch-button DOWN. -/
theorem step_single_timer (s : State) (e : Event) (k : Nat) (d : Int)
    (he : e.isTouchDown = false)
    (h : s.timers = [] ∨ (s.timers = [(k, d)] ∧ s.rightClickDone = false)) :
    (step s e).1.timers = [] ∨
      ((step s e).1.timers = [(k, d)] ∧ (step s e).1.rightClickDone = false) := by
  cases e with
  | line now fg l =>
    simp only [Event.isTouchDown] at he
    have hsub := processLine_timers s now fg l he
    have hr := (processLine_touch_flags s now fg l he).1
    simp only [step]
    rcases h with h | h
    · rw [h] at hsub
      exact Or.inl (List.eq_nil_of_sublist_nil hsub)
    · rw [h.1] at hsub
      rcases sublist_single _ _ hsub with h2 | h2
      · exact Or.inl h2
      · exact Or.inr ⟨h2, by rw [hr]; exact h.2⟩
  | timerFire now id =>
    simp only [step]
    split
    · rename_i hdue
      left
      have hk : ∀ u : State, (longPress u).1.timers = u.timers := by
        intro u; unfold longPress; split <;> rfl
      rw [hk]
      rcases h with h | h
      · simp [h]
      · simp only [due, h.1, List.any_cons, List.any_nil, Bool.or_false, Bool.and_eq_true,
          beq_iff_eq, decide_eq_true_eq] at hdue
        simp [h.1, hdue.1]
    · exact h

theorem run_single_timer (es : List Event) (s : State) (k : Nat) (d : Int)
    (hes : ∀ e ∈ es, e.isTouchDown = false)
    (h : s.timers = [] ∨ (s.timers = [(k, d)] ∧ s.rightClickDone = false)) :
    (run s es).1.timers = [] ∨
      ((run s es).1.timers = [(k, d)] ∧ (run s es).1.rightClickDone = false) := by
  induction es generalizing s with
  | nil => exact h
  | cons e es ih =>
    exact ih _ (fun x hx => hes x (List.mem_cons_of_mem _ hx))
      (step_single_timer s e k d (hes e (List.mem_cons_self _ _)) h)

/-- Until the next touch-button DOWN, a set `rightClickDone` stays set and
`driver.Button("right", _)` is not called. -/
theorem run_rightClickDone (es : List Event) (s : State)
    (hes : ∀ e ∈ es, e.isTouchDown = false) (h : s.rightClickDone = true) :
    (run s es).1.rightClickDone = true ∧ ∀ a ∈ (run s es).2, a.isRight = false := by
  induction es generalizing s with
  | nil => simpa [run] using h
  | cons e es ih =>
    have hes2 : ∀ x ∈ es, x.isTouchDown = false := fun x hx => hes x (List.mem_cons_of_mem _ hx)
    have he := hes e (List.mem_cons_self _ _)
    simp only [run]
    have hstep : (step s e).1.rightClickDone = true ∧ ∀ a ∈ (step s e).2, a.isRight = false := by
      cases e with
      | line now fg l =>
        simp only [Event.isTouchDown] at he
        exact ⟨by rw [step, (processLine_touch_flags s now fg l he).1]; exact h,
          processLine_calls s now fg l⟩
      | timerFire now id =>
        have hf := timerFire_fields s now id
        refine ⟨hf.2.2.2.1 h, ?_⟩
        rw [hf.2.2.2.2.1 (Or.inl h)]
        simp
    have h2 := ih (step s e).1 hes2 hstep.1
    refine ⟨h2.1, ?_⟩
    intro a ha
    rcases List.mem_append.mp ha with ha | ha
    · exact hstep.2 a ha
    · exact h2.2 a ha

/-- What the long press does when nothing else can fire: a touch-button DOWN
while not dragging arms a long-press timer due 600 ms later.  When that timer
fires without movement since the DOWN and with exactly one active finger, after
lines only, or after any events but a further touch-button DOWN when no other
timer was outstanding at the DOWN, the callback makes exactly the driver calls
`Button("right", true)`, `Button("right", false)` and sets `rightClickDone`.
Until the next touch-button DOWN, `rightClickDone` stays set, no further
`Button("right", _)` call is made, every timer firing makes no call and a
touch-button UP makes no call, whatever the time elapsed. -/
theorem long_press_single_timer (s : State) (t0 tf : Int) (f0 : Bool) (mids later : List Event)
    (hdrag : s.isDragging = false)
    (hmids : (∀ e ∈ mids, e.isLine = true) ∨
      (s.timers = [] ∧ ∀ e ∈ mids, e.isTouchDown = false))
    (hmoved : movedAfter false (step s (Event.line t0 f0 Line.touchDown)).1 mids = false)
    (hone : (run (step s (Event.line t0 f0 Line.touchDown)).1 mids).1.activeFingers = 1)
    (hdue : due (run (step s (Event.line t0 f0 Line.touchDown)).1 mids).1 tf s.nextTimer = true)
    (hlater : ∀ e ∈ later, e.isTouchDown = false) :
    let s1 := (step s (Event.line t0 f0 Line.touchDown)).1
    let s2 := (run s1 mids).1
    let r3 := step s2 (Event.timerFire tf s.nextTimer)
    let s4 := (run r3.1 later).1
    s1.rightClickTimer = some s.nextTimer ∧
    (s.nextTimer, t0 + longPressTimeout) ∈ s1.timers ∧
    r3.2 = [Action.Button Btn.right true, Action.Button Btn.right false] ∧
    r3.1.rightClickDone = true ∧
    s4.rightClickDone = true ∧
    (∀ a ∈ (run r3.1 later).2, a.isRight = false) ∧
    (∀ t id, (step s4 (Event.timerFire t id)).2 = []) ∧
    (∀ t fg, (step s4 (Event.line t fg Line.touchUp)).2 = []) := by
  intro s1 s2 r3 s4
  have hs1 : s1 = armTimer (resetTouch s t0) t0 := by
    simp [s1, step, processLine_touchDown]
  have hs1r : s1.rightClickDone = false := by
    rw [hs1]; simp [armTimer, resetTouch, hdrag]
  have hs2r : s2.rightClickDone = false := by
    rcases hmids with hl | ⟨ht, hl⟩
    · exact run_lines_rightClickDone_false mids s1 hl hs1r
    · have hs1t : s1.timers = [(s.nextTimer, t0 + longPressTimeout)] := by
        rw [hs1]; simp [armTimer, resetTouch, hdrag, ht]
      rcases run_single_timer mids s1 _ _ hl (Or.inr ⟨hs1t, hs1r⟩) with h | h
      · have hd : due s2 tf s.nextTimer = true := hdue
        have h2 : s2.timers = [] := h
        simp [due, h2] at hd
      · exact h.2
  have hr3 : r3.2 = [Action.Button Btn.right true, Action.Button Btn.right false]
      ∧ r3.1.rightClickDone = true := by
    have hd : due s2 tf s.nextTimer = true := hdue
    have hs1m : s1.hasMoved = false := by
      rw [hs1]; simp [armTimer, resetTouch, hdrag]
    have hm : s2.hasMoved = false := by
      have h := run_hasMoved_eq mids s1
      rw [hs1m] at h
      exact h.trans hmoved
    have hf : s2.activeFingers = 1 := hone
    simp [r3, step, hd, longPress, hm, hs2r, hf]
  have hrun := run_rightClickDone later r3.1 hlater hr3.2
  refine ⟨by rw [hs1]; simp [armTimer, resetTouch, hdrag],
    by rw [hs1]; simp [armTimer, resetTouch, hdrag], hr3.1, hr3.2, hrun.1, hrun.2, ?_, ?_⟩
  · intro t id
    exact (timerFire_fields s4 t id).2.2.2.2.1 (Or.inl hrun.1)
  · intro t fg
    have h4 : s4.rightClickDone = true := hrun.1
    simp [step, processLine_touchUp, tap, h4]

/-- An instance of `long_press_single_timer`: one finger, touch-button DOWN at
0, a resting sample, the timer firing at 600 ms, then the lift. -/
theorem long_press_single_timer_example :
    (step (run (step (step State.init (Event.line 0 true Line.newFinger)).1
        (Event.line 0 true Line.touchDown)).1
        [Event.line 10 true (Line.posX 100), Event.line 10 true (Line.posY 100),
          Event.line 10 true Line.syn]).1 (Event.timerFire 600000000 0)).2
      = [Action.Button Btn.right true, Action.Button Btn.right false] :=
  (long_press_single_timer (step State.init (Event.line 0 true Line.newFinger)).1 0 600000000
    true
    [Event.line 10 true (Line.posX 100), Event.line 10 true (Line.posY 100),
      Event.line 10 true Line.syn]
    [Event.line 700000000 true Line.lift]
    (by decide) (Or.inl (by decide)) (by decide) (by decide) (by decide) (by decide)).2.2.1

/-- C3 fails on the code, by the defect of C9: a timer that a second
touch-button DOWN left outstanding fires into the next touch.  After a new
finger and touch-button DOWN at 0, a second DOWN at 100 ms, the lift and
touch-button UP at 150 ms, and a new finger with touch-button DOWN at 450 ms
(not dragging), the timers of the first and of the last DOWN are outstanding.
The first fires at 600 ms, 150 ms into the new touch, and makes the right-click
calls.  When the timer armed by the last DOWN fires at 1050 ms, without any
movement since that DOWN and with exactly one active finger, it makes no
call. -/
theorem C3_stale_timer_blocks_long_press :
    (run State.init staleTimerSession).1.timers = [(0, 600000000), (2, 1050000000)] ∧
    (run State.init staleTimerSession).1.rightClickTimer = some 2 ∧
    (run State.init staleTimerSession).1.isDragging = false ∧
    (run State.init staleTimerSession).2
      = [Action.Button Btn.left true, Action.Button Btn.left false] ∧
    (step (run State.init staleTimerSession).1 (Event.timerFire 600000000 0)).2
      = [Action.Button Btn.right true, Action.Button Btn.right false] ∧
    movedAfter false State.init (staleTimerSession ++ [Event.timerFire 600000000 0]) = false ∧
    (run State.init (staleTimerSession ++ [Event.timerFire 600000000 0])).1.hasMoved = false ∧
    (run State.init (staleTimerSession ++ [Event.timerFire 600000000 0])).1.activeFingers = 1 ∧
    due (run State.init (staleTimerSession ++ [Event.timerFire 600000000 0])).1
      1050000000 2 = true ∧
    (step (run State.init (staleTimerSession ++ [Event.timerFire 600000000 0])).1
      (Event.timerFire 1050000000 2)).2 = [] := by
  decide

/-! ## C4 -/

theorem trackingBlock_drag (s : State) (now : Int) (l : Line) (hl : l.isLift = false)
    (h : s.isDragging = true) :
    (trackingBlock s now l).1.isDragging = true ∧
    ∀ a ∈ (trackingBlock s now l).2, a.isLeftUp = false := by
  unfold trackingBlock
  split
  · split
    · rename_i h1 h2
      simp [Line.isLift, h1, h2] at hl
    · unfold startDrag addFinger
      split <;> simp [h, Action.isLeftUp]
  · simp [h]

/-- While dragging, an event other than a finger lift keeps `isDragging` set and
does not call `driver.Button("left", false)`. -/
theorem step_drag (s : State) (e : Event) (he : e.isLift = false) (h : s.isDragging = true) :
    (step s e).1.isDragging = true ∧ ∀ a ∈ (step s e).2, a.isLeftUp = false := by
  cases e with
  | line now fg l =>
    simp only [Event.isLift] at he
    have hT := trackingBlock_drag s now l he h
    have hB := touchBlock_keeps (trackingBlock s now l).1 now l
    have hBc := touchBlock_calls (trackingBlock s now l).1 now l
    have hD := deviceBlock_fields (touchBlock (trackingBlock s now l).1 now l).1 fg l
    have hDc := deviceBlock_calls (touchBlock (trackingBlock s now l).1 now l).1 fg l
    simp only [step, processLine]
    refine ⟨by rw [hD.2.1, hB.1]; exact hT.1, ?_⟩
    intro a ha
    simp only [List.mem_append] at ha
    rcases ha with (ha | ha) | ha
    · exact hT.2 a ha
    · rcases hBc with hc | hc
      · rw [hc] at ha; simp at ha
      · rw [hT.1] at hc; exact absurd hc.2.1 (by simp)
    · exact (hDc a ha).2
  | timerFire now id =>
    have hf := timerFire_fields s now id
    exact ⟨by rw [hf.2.1]; exact h, hf.2.2.2.2.2⟩

theorem run_drag (es : List Event) (s : State) (hes : ∀ e ∈ es, e.isLift = false)
    (h : s.isDragging = true) :
    (run s es).1.isDragging = true ∧ ∀ a ∈ (run s es).2, a.isLeftUp = false := by
  induction es generalizing s with
  | nil => simpa [run] using h
  | cons e es ih =>
    have hstep := step_drag s e (hes e (List.mem_cons_self _ _)) h
    have h2 := ih (step s e).1 (fun x hx => hes x (List.mem_cons_of_mem _ hx)) hstep.1
    simp only [run]
    refine ⟨h2.1, ?_⟩
    intro a ha
    rcases List.mem_append.mp ha with ha | ha
    · exact hstep.2 a ha
    · exact h2.2 a ha

/-- What a new finger does, by the variables `lastTapWasPure` and
`lastReleaseTime`: when `lastTapWasPure` is set and the release was at `r`, a new
finger at `t` with `t - r` under 250 ms sets `isDragging` and makes exactly the
driver call `Button("left", true)`; after that, over any events other than a
finger lift, `isDragging` stays set and `Button("left", false)` is not called;
the next finger lift calls `Button("left", false)` exactly once and clears
`isDragging`.  When `lastTapWasPure` is not set, or 250 ms or more have passed, a
new finger makes no driver call and leaves `isDragging` as it is. -/
theorem newFinger_by_flag (s : State) (t : Int) (fg : Bool) :
    (∀ r : Int, s.lastTapWasPure = true → s.lastReleaseTime = some r →
      t - r < doubleTapTimeout →
      (step s (Event.line t fg Line.newFinger)).2 = [Action.Button Btn.left true] ∧
      (step s (Event.line t fg Line.newFinger)).1.isDragging = true ∧
      ∀ es : List Event, (∀ e ∈ es, e.isLift = false) →
        (run (step s (Event.line t fg Line.newFinger)).1 es).1.isDragging = true ∧
        (∀ a ∈ (run (step s (Event.line t fg Line.newFinger)).1 es).2, a.isLeftUp = false) ∧
        ∀ (tl : Int) (fl : Bool),
          (step (run (step s (Event.line t fg Line.newFinger)).1 es).1
            (Event.line tl fl Line.lift)).2 = [Action.Button Btn.left false] ∧
          (step (run (step s (Event.line t fg Line.newFinger)).1 es).1
            (Event.line tl fl Line.lift)).1.isDragging = false) ∧
    (s.lastTapWasPure = false ∨ doubleTapTimeout ≤ since s.lastReleaseTime t →
      (step s (Event.line t fg Line.newFinger)).2 = [] ∧
      (step s (Event.line t fg Line.newFinger)).1.isDragging = s.isDragging) := by
  constructor
  · intro r hp hr ht
    have h1 : (step s (Event.line t fg Line.newFinger)).2 = [Action.Button Btn.left true] ∧
        (step s (Event.line t fg Line.newFinger)).1.isDragging = true := by
      simp [step, processLine_newFinger, startDrag, addFinger, hp, hr, since, ht]
    refine ⟨h1.1, h1.2, ?_⟩
    intro es hes
    have h2 := run_drag es _ hes h1.2
    refine ⟨h2.1, h2.2, ?_⟩
    intro tl fl
    generalize (run (step s (Event.line t fg Line.newFinger)).1 es).1 = u at h2
    have hd : (decFingers u).isDragging = true := by
      unfold decFingers; split <;> simp [h2.1]
    simp [step, processLine_lift, endDrag, hd, recordRelease]
  · intro h
    have hn : ¬ (s.lastTapWasPure = true ∧ since s.lastReleaseTime t < doubleTapTimeout) := by
      rintro ⟨h1, h2⟩
      rcases h with h | h
      · rw [h1] at h; exact Bool.noConfusion h
      · exact absurd h2 (not_lt.mpr h)
    simp only [step, processLine_newFinger, startDrag, addFinger]
    rw [if_neg hn]
    exact ⟨rfl, rfl⟩

/-- C4: let the last finger lift, at time `r`, follow the events `pre` from any
state, and be followed by events that are not tracking-id lines.  That lift was
a pure tap when there has been no movement since the last touch-button DOWN (no
sync-report with a non-zero host delta; `v.hasMoved` counts as movement while
`pre` has not come to a DOWN, and is false in the initial state) and no finger is
active after it, and `lastTapWasPure` is set exactly then.  After a pure tap a new finger at `t` with
`t - r` under 250 ms sets `isDragging` and makes exactly the driver call
`Button("left", true)`; from then on, over any events other than a finger lift
(touch-button, position and sync-report lines, timer firings, further fingers),
`isDragging` stays set and `Button("left", false)` is not called; the next
finger lift calls `Button("left", false)` exactly once and clears `isDragging`.
When there was movement, or a finger was still active after the lift, or 250 ms
or more have passed, the new finger makes no driver call and does not enter
dragging; nor does it when no finger was ever lifted.  The number of active
fingers after the lift is the one counted on the lines. -/
theorem C4_double_tap_drag (v : State) (pre between later : List Event) (r t tl : Int)
    (fr fg fl : Bool)
    (hbetween : ∀ e ∈ between, e.isTracking = false)
    (hlater : ∀ e ∈ later, e.isLift = false) :
    let rel := (step (run v pre).1 (Event.line r fr Line.lift)).1
    let s := (run rel between).1
    let nf := step s (Event.line t fg Line.newFinger)
    let dr := run nf.1 later
    let up := step dr.1 (Event.line tl fl Line.lift)
    (s.lastTapWasPure = true ↔
      (movedAfter v.hasMoved v pre = false ∧ rel.activeFingers = 0)) ∧
    s.lastReleaseTime = some r ∧
    (movedAfter v.hasMoved v pre = false → rel.activeFingers = 0 →
      t - r < doubleTapTimeout →
      nf.2 = [Action.Button Btn.left true] ∧ nf.1.isDragging = true ∧
      dr.1.isDragging = true ∧ (∀ a ∈ dr.2, a.isLeftUp = false) ∧
      up.2 = [Action.Button Btn.left false] ∧ up.1.isDragging = false) ∧
    (movedAfter v.hasMoved v pre = true ∨ rel.activeFingers ≠ 0 ∨ doubleTapTimeout ≤ t - r →
      nf.2 = [] ∧ nf.1.isDragging = false) ∧
    (∀ es : List Event, (∀ e ∈ es, e.isLift = false) →
      (step (run State.init es).1 (Event.line t fg Line.newFinger)).2 = [] ∧
      (step (run State.init es).1 (Event.line t fg Line.newFinger)).1.isDragging
        = (run State.init es).1.isDragging) ∧
    rel.activeFingers = fingersAfter v.activeFingers (pre ++ [Event.line r fr Line.lift]) := by
  intro rel s nf dr up
  have hu : (run v pre).1.hasMoved = movedAfter v.hasMoved v pre := run_hasMoved_eq pre v
  have hrel := lift_records (run v pre).1 r fr
  have hbet := run_release_fields between rel hbetween
  have hpure : s.lastTapWasPure
      = (!movedAfter v.hasMoved v pre && decide (rel.activeFingers = 0)) := by
    rw [← hu]
    exact hbet.1.trans hrel.1
  have htime : s.lastReleaseTime = some r := hbet.2.1.trans hrel.2.1
  have hdrag : s.isDragging = false := hbet.2.2.trans hrel.2.2
  have hiff : s.lastTapWasPure = true ↔
      (movedAfter v.hasMoved v pre = false ∧ rel.activeFingers = 0) := by
    rw [hpure]
    simp
  have hflag := newFinger_by_flag s t fg
  have hcount : rel.activeFingers
      = fingersAfter v.activeFingers (pre ++ [Event.line r fr Line.lift]) := by
    rw [← run_fingers_eq, run_append]
    rfl
  refine ⟨hiff, htime, ?_, ?_, ?_, hcount⟩
  · intro hm hf ht
    have h1 := hflag.1 r (hiff.mpr ⟨hm, hf⟩) htime ht
    have h2 := h1.2.2 later hlater
    exact ⟨h1.1, h1.2.1, h2.1, h2.2.1, (h2.2.2 tl fl).1, (h2.2.2 tl fl).2⟩
  · intro h
    have hno : s.lastTapWasPure = false ∨ doubleTapTimeout ≤ since s.lastReleaseTime t := by
      rcases h with h | h | h
      · left
        rw [hpure, h]
        rfl
      · left
        rw [hpure]
        simp [h]
      · right
        rw [htime]
        exact h
    have h2 := hflag.2 hno
    exact ⟨h2.1, h2.2.trans hdrag⟩
  · intro es hes
    have hp : (run State.init es).1.lastTapWasPure = false :=
      run_lastTapWasPure es State.init hes
    exact (newFinger_by_flag (run State.init es).1 t fg).2 (Or.inl hp)

/-- Witness of C4: a tap (new finger and touch-button DOWN at 0, lift and
touch-button UP at 100 ms) followed by a new finger at 150 ms starts a drag; the
same with a move from `(100, 100)` to `(110, 100)` before the lift does not. -/
theorem C4_double_tap_drag_witness :
    (step (run (step (run State.init [Event.line 0 true Line.newFinger,
        Event.line 0 true Line.touchDown]).1 (Event.line 100000000 true Line.lift)).1
        [Event.line 100000000 true Line.touchUp]).1
      (Event.line 150000000 true Line.newFinger)).2 = [Action.Button Btn.left true] ∧
    (step (run (step (run State.init [Event.line 0 true Line.newFinger,
        Event.line 0 true Line.touchDown, Event.line 10 true (Line.posX 100),
        Event.line 10 true (Line.posY 100), Event.line 10 true Line.syn,
        Event.line 20 true (Line.posX 110), Event.line 20 true Line.syn]).1
        (Event.line 100000000 true Line.lift)).1
        [Event.line 100000000 true Line.touchUp]).1
      (Event.line 150000000 true Line.newFinger)).2 = [] :=
  ⟨((C4_double_tap_drag State.init [Event.line 0 true Line.newFinger,
        Event.line 0 true Line.touchDown] [Event.line 100000000 true Line.touchUp]
      [Event.line 150000000 true Line.touchDown, Event.line 160000000 true (Line.posX 100)]
      100000000 150000000 300000000 true true true (by decide) (by decide)).2.2.1
      (by decide) (by decide) (by decide)).1,
    ((C4_double_tap_drag State.init [Event.line 0 true Line.newFinger,
        Event.line 0 true Line.touchDown, Event.line 10 true (Line.posX 100),
        Event.line 10 true (Line.posY 100), Event.line 10 true Line.syn,
        Event.line 20 true (Line.posX 110), Event.line 20 true Line.syn]
      [Event.line 100000000 true Line.touchUp] []
      100000000 150000000 300000000 true true true (by decide) (by decide)).2.2.2.1
      (Or.inl (by decide))).1⟩

/-! ## C5 -/

/-- C5 fails as stated: in `twoFingerState` (two fingers, all four coordinates
non-zero, host deltas `0` and `35`) the accumulator reaches `a = 0.6000000000000001
+ 3.5`, which is at least `1.0`, and the sync-report calls `Scroll(491)`, while
the nearest integer to `a * 120`, taken on the `float64` product or on the exact
product, is `492`. -/
theorem C5_round_counterexample :
    twoFingerState.activeFingers = 2 ∧
    twoFingerState.lastX = 102 ∧ twoFingerState.lastY = 100 ∧
    twoFingerState.curX = 113 ∧ twoFingerState.curY = 100 ∧
    hostDelta twoFingerState.lastY twoFingerState.curY = 0 ∧
    hostDelta twoFingerState.curX twoFingerState.lastX = 35 ∧
    F64.one ≤ F64.add twoFingerState.scrollAccum (F64.mul (F64.ofInt 35) scrollStep) ∧
    (step twoFingerState (Event.line 0 true Line.syn)).2 = [Action.Scroll 491] ∧
    specRound (F64.mul (F64.add twoFingerState.scrollAccum (F64.mul (F64.ofInt 35) scrollStep))
      (F64.ofInt scrollSens)) = 492 ∧
    specRound (F64.add twoFingerState.scrollAccum (F64.mul (F64.ofInt 35) scrollStep)
      * scrollSens) = 492 := by
  decide

/-- The difference between truncation and rounding does not hinge on the
separate rounding of the product and the sum: with a fused multiply-add, the
host deltas `6`, `-9`, `-6`, `-32` keep the accumulator below `1.0` in magnitude
three times and then bring it to `-4.1`, whose product with `120` truncates to
`-491` and rounds to `-492`. -/
theorem fused_round_differs :
    let a1 := F64.fma (F64.ofInt 6) scrollStep 0
    let a2 := F64.fma (F64.ofInt (-9)) scrollStep a1
    let a3 := F64.fma (F64.ofInt (-6)) scrollStep a2
    let a4 := F64.fma (F64.ofInt (-32)) scrollStep a3
    (-F64.one < a1 ∧ a1 < F64.one) ∧ (-F64.one < a2 ∧ a2 < F64.one) ∧
    (-F64.one < a3 ∧ a3 < F64.one) ∧ a4 ≤ -F64.one ∧
    F64.toInt32 (F64.mul a4 (F64.ofInt scrollSens)) = -491 ∧
    specRound (F64.mul a4 (F64.ofInt scrollSens)) = -492 := by
  decide

/-- C5 as amended: on a sync-report with the foreground flag set, all of `lastX`,
`lastY`, `curX`, `curY` non-zero, at least two fingers and host deltas not both
zero, the accumulator becomes `a = scrollAccum + float64(dy) * 0.1`; when
`-1.0 < a < 1.0` no driver call is made and the accumulator keeps `a`; otherwise
exactly one call `Scroll(int32(a * 120))` is made, the `float64` product being
truncated toward zero, and the accumulator is reset to `0`.  `Move` is called in
neither case, and `Scroll` is called only when `a` has reached `1.0` in
magnitude. -/
theorem C5_scroll_accumulates (s : State) (now : Int)
    (hbase : s.lastX ≠ 0 ∧ s.lastY ≠ 0 ∧ s.curX ≠ 0 ∧ s.curY ≠ 0)
    (hfingers : 2 ≤ s.activeFingers)
    (hdelta : hostDelta s.lastY s.curY ≠ 0 ∨ hostDelta s.curX s.lastX ≠ 0) :
    let a := F64.add s.scrollAccum (F64.mul (F64.ofInt (hostDelta s.curX s.lastX)) scrollStep)
    let r := step s (Event.line now true Line.syn)
    (-F64.one < a ∧ a < F64.one → r.2 = [] ∧ r.1.scrollAccum = a) ∧
    (F64.one ≤ a ∨ a ≤ -F64.one →
      r.2 = [Action.Scroll (F64.toInt32 (F64.mul a (F64.ofInt scrollSens)))] ∧
      r.1.scrollAccum = 0) ∧
    (∀ d, Action.Scroll d ∈ r.2 → F64.one ≤ a ∨ a ≤ -F64.one) := by
  intro a r
  suffices hmain : (-F64.one < a ∧ a < F64.one → r.2 = [] ∧ r.1.scrollAccum = a) ∧
      (F64.one ≤ a ∨ a ≤ -F64.one →
        r.2 = [Action.Scroll (F64.toInt32 (F64.mul a (F64.ofInt scrollSens)))] ∧
        r.1.scrollAccum = 0) by
    refine ⟨hmain.1, hmain.2, ?_⟩
    intro d hd
    by_contra hc
    have hlt : -F64.one < a ∧ a < F64.one := by
      constructor
      · by_contra h1
        exact hc (Or.inr (not_lt.mp h1))
      · by_contra h1
        exact hc (Or.inl (not_lt.mp h1))
    rw [(hmain.1 hlt).1] at hd
    exact absurd hd (List.not_mem_nil _)
  have hr : r = (setBaseline (scrollOrMove (stopTimer { s with hasMoved := true })
      (hostDelta s.lastY s.curY) (hostDelta s.curX s.lastX)).1,
      (scrollOrMove (stopTimer { s with hasMoved := true })
      (hostDelta s.lastY s.curY) (hostDelta s.curX s.lastX)).2) := by
    simp only [r, step, processLine_syn, synReport, motion, moved]
    simp [hbase, hdelta]
  have hf : (stopTimer { s with hasMoved := true }).activeFingers ≥ 2 := by
    simpa using hfingers
  constructor
  · intro ha
    have hna : ¬ (a ≥ F64.one ∨ a ≤ -F64.one) := by
      rintro (h | h)
      · exact absurd ha.2 (not_lt.mpr h)
      · exact absurd ha.1 (not_lt.mpr h)
    rw [hr]
    simp only [scrollOrMove, if_pos hf, stopTimer_scrollAccum]
    rw [if_neg hna]
    exact ⟨rfl, rfl⟩
  · intro ha
    have hya : a ≥ F64.one ∨ a ≤ -F64.one := ha
    rw [hr]
    simp only [scrollOrMove, if_pos hf, stopTimer_scrollAccum]
    rw [if_pos hya]
    exact ⟨rfl, rfl⟩

/-- Witness of C5: in `twoFingerState` the sync-report scrolls by `491` and
resets the accumulator; one sync-report earlier the accumulator only takes the
value `float64(6) * 0.1`, below `1.0`, and no driver call is made. -/
theorem C5_scroll_accumulates_witness :
    ((step twoFingerState (Event.line 0 true Line.syn)).2 = [Action.Scroll 491] ∧
      (step twoFingerState (Event.line 0 true Line.syn)).1.scrollAccum = 0) ∧
    (step (run State.init [Event.line 0 true Line.newFinger, Event.line 0 true Line.newFinger,
        Event.line 0 true (Line.posX 100), Event.line 0 true (Line.posY 100),
        Event.line 0 true Line.syn, Event.line 0 true (Line.posX 102)]).1
      (Event.line 0 true Line.syn)).2 = [] :=
  ⟨⟨((C5_scroll_accumulates twoFingerState 0 (by decide) (by decide) (by decide)).2.1
        (Or.inl (by decide))).1.trans (by decide),
      ((C5_scroll_accumulates twoFingerState 0 (by decide) (by decide) (by decide)).2.1
        (Or.inl (by decide))).2⟩,
    ((C5_scroll_accumulates (run State.init [Event.line 0 true Line.newFinger,
        Event.line 0 true Line.newFinger, Event.line 0 true (Line.posX 100),
        Event.line 0 true (Line.posY 100), Event.line 0 true Line.syn,
        Event.line 0 true (Line.posX 102)]).1 0 (by decide) (by decide) (by decide)).1
      (by decide)).1⟩

/-! ## C6 -/

/-- Until the next touch-button DOWN, a set `hasMoved` stays set and
`driver.Button("right", _)` is not called. -/
theorem run_hasMoved (es : List Event) (s : State)
    (hes : ∀ e ∈ es, e.isTouchDown = false) (h : s.hasMoved = true) :
    (run s es).1.hasMoved = true ∧ ∀ a ∈ (run s es).2, a.isRight = false := by
  induction es generalizing s with
  | nil => simpa [run] using h
  | cons e es ih =>
    have hes2 : ∀ x ∈ es, x.isTouchDown = false := fun x hx => hes x (List.mem_cons_of_mem _ hx)
    have he := hes e (List.mem_cons_self _ _)
    simp only [run]
    have hstep : (step s e).1.hasMoved = true ∧ ∀ a ∈ (step s e).2, a.isRight = false := by
      cases e with
      | line now fg l =>
        simp only [Event.isTouchDown] at he
        exact ⟨(processLine_touch_flags s now fg l he).2 h, processLine_calls s now fg l⟩
      | timerFire now id =>
        have hf := timerFire_fields s now id
        refine ⟨by rw [hf.1]; exact h, ?_⟩
        rw [hf.2.2.2.2.1 (Or.inr h)]
        simp
    have h2 := ih (step s e).1 hes2 hstep.1
    refine ⟨h2.1, ?_⟩
    intro a ha
    rcases List.mem_append.mp ha with ha | ha
    · exact hstep.2 a ha
    · exact h2.2 a ha

/-- C6: a sync-report that yields a non-zero host delta sets `hasMoved` and
stops the timer `rightClickTimer` points to; from then on, over any events up
to the next touch-button DOWN, timer firings at any time included, `hasMoved`
stays set and `driver.Button("right", _)` is not called. -/
theorem C6_movement_cancels_long_press (s : State) (now : Int) (later : List Event)
    (hbase : s.lastX ≠ 0 ∧ s.lastY ≠ 0 ∧ s.curX ≠ 0 ∧ s.curY ≠ 0)
    (hdelta : hostDelta s.lastY s.curY ≠ 0 ∨ hostDelta s.curX s.lastX ≠ 0)
    (hlater : ∀ e ∈ later, e.isTouchDown = false) :
    let r := step s (Event.line now true Line.syn)
    r.1.hasMoved = true ∧
    (∀ id, s.rightClickTimer = some id → ∀ t, due r.1 t id = false) ∧
    (∀ a ∈ r.2, a.isRight = false) ∧
    (run r.1 later).1.hasMoved = true ∧
    (∀ a ∈ (run r.1 later).2, a.isRight = false) ∧
    (∀ t id, (step (run r.1 later).1 (Event.timerFire t id)).2 = []) := by
  intro r
  have hr : r = (setBaseline (scrollOrMove (stopTimer { s with hasMoved := true })
      (hostDelta s.lastY s.curY) (hostDelta s.curX s.lastX)).1,
      (scrollOrMove (stopTimer { s with hasMoved := true })
      (hostDelta s.lastY s.curY) (hostDelta s.curX s.lastX)).2) := by
    simp only [r, step, processLine_syn, synReport, motion, moved]
    simp [hbase, hdelta]
  have hS := scrollOrMove_fields (stopTimer { s with hasMoved := true })
    (hostDelta s.lastY s.curY) (hostDelta s.curX s.lastX)
  have hm : r.1.hasMoved = true := by
    rw [hr]; simp [setBaseline, hS.1]
  have hrun := run_hasMoved later r.1 hlater hm
  refine ⟨hm, ?_, processLine_calls s now true Line.syn, hrun.1, hrun.2, ?_⟩
  · intro id hid t
    rw [hr]
    simp only [due, setBaseline, hS.2.2.2.2.2.1]
    simp only [stopTimer, hid, List.any_filter]
    simp only [List.any_eq_false, Bool.and_eq_true, bne_iff_ne, ne_eq, beq_iff_eq,
      decide_eq_true_eq, not_and]
    intro x _ h1 h2
    exact absurd h2 h1
  · intro t id
    exact (timerFire_fields _ t id).2.2.2.2.1 (Or.inr hrun.1)

/-- Witness of C6: one finger, touch-button DOWN at 0, a move from `(100, 100)`
to `(110, 100)`, then the lift and touch-button UP: `hasMoved` is still set and
the timer armed by the DOWN makes no call when it is taken to fire at 600 ms. -/
theorem C6_movement_cancels_long_press_witness :
    (run (step (run State.init [Event.line 0 true Line.newFinger,
        Event.line 0 true Line.touchDown, Event.line 1 true (Line.posX 100),
        Event.line 1 true (Line.posY 100), Event.line 1 true Line.syn,
        Event.line 2 true (Line.posX 110)]).1 (Event.line 2 true Line.syn)).1
      [Event.line 500000000 true Line.lift,
        Event.line 500000000 true Line.touchUp]).1.hasMoved = true ∧
    (step (run (step (run State.init [Event.line 0 true Line.newFinger,
        Event.line 0 true Line.touchDown, Event.line 1 true (Line.posX 100),
        Event.line 1 true (Line.posY 100), Event.line 1 true Line.syn,
        Event.line 2 true (Line.posX 110)]).1 (Event.line 2 true Line.syn)).1
      [Event.line 500000000 true Line.lift,
        Event.line 500000000 true Line.touchUp]).1 (Event.timerFire 600000000 0)).2 = [] :=
  ⟨(C6_movement_cancels_long_press (run State.init [Event.line 0 true Line.newFinger,
      Event.line 0 true Line.touchDown, Event.line 1 true (Line.posX 100),
      Event.line 1 true (Line.posY 100), Event.line 1 true Line.syn,
      Event.line 2 true (Line.posX 110)]).1 2
    [Event.line 500000000 true Line.lift, Event.line 500000000 true Line.touchUp]
    (by decide) (by decide) (by decide)).2.2.2.1,
  (C6_movement_cancels_long_press (run State.init [Event.line 0 true Line.newFinger,
      Event.line 0 true Line.touchDown, Event.line 1 true (Line.posX 100),
      Event.line 1 true (Line.posY 100), Event.line 1 true Line.syn,
      Event.line 2 true (Line.posX 110)]).1 2
    [Event.line 500000000 true Line.lift, Event.line 500000000 true Line.touchUp]
    (by decide) (by decide) (by decide)).2.2.2.2.2 600000000 0⟩

/-! ## C7 -/

theorem step_activeFingers (s : State) (e : Event) (h : 0 ≤ s.activeFingers) :
    0 ≤ (step s e).1.activeFingers ∧ (step s e).1.activeFingers ≤ s.activeFingers + 1 := by
  cases e with
  | line now fg l =>
    simp only [step, processLine_activeFingers]
    split
    · split
      · split <;> constructor <;> omega
      · constructor <;> omega
    · constructor <;> omega
  | timerFire now id =>
    rw [(timerFire_fields s now id).2.2.1]
    constructor <;> omega

theorem run_activeFingers (es : List Event) (s : State) (h : 0 ≤ s.activeFingers) :
    0 ≤ (run s es).1.activeFingers ∧
    (run s es).1.activeFingers ≤ s.activeFingers + es.length := by
  induction es generalizing s with
  | nil => simp [run, h]
  | cons e es ih =>
    have h1 := step_activeFingers s e h
    have h2 := ih (step s e).1 h1.1
    simp only [run, List.length_cons, Nat.cast_add, Nat.cast_one]
    constructor
    · exact h2.1
    · omega

/-- C7: after any sequence of lines and timer firings from the initial state,
`activeFingers` is not negative (and at most the number of events, far from the
range of a 64-bit `int`); in the state reached, a finger lift takes one off when
the count is positive and leaves it at `0` otherwise, and a new finger adds
exactly one. -/
theorem C7_active_fingers_nonneg (es : List Event) (now : Int) (fg : Bool) :
    0 ≤ (run State.init es).1.activeFingers ∧
    (run State.init es).1.activeFingers ≤ es.length ∧
    (step (run State.init es).1 (Event.line now fg Line.lift)).1.activeFingers =
      (if (run State.init es).1.activeFingers > 0 then (run State.init es).1.activeFingers - 1
        else 0) ∧
    (step (run State.init es).1 (Event.line now fg Line.newFinger)).1.activeFingers =
      (run State.init es).1.activeFingers + 1 := by
  have h := run_activeFingers es State.init (le_refl _)
  have h0 : State.init.activeFingers = 0 := rfl
  rw [h0, zero_add] at h
  refine ⟨h.1, h.2, ?_, ?_⟩
  · simp only [step, processLine_activeFingers, Line.lift, Line.blank, if_true]
    split
    · rfl
    · omega
  · simp [step, processLine_activeFingers, Line.newFinger, Line.blank]

/-! ## C8 -/

theorem leftDown_append (d : Bool) (as bs : List Action) :
    leftDown d (as ++ bs) = leftDown (leftDown d as) bs := by
  induction as generalizing d with
  | nil => rfl
  | cons a as ih =>
    cases a with
    | Move dx dy => simpa [leftDown] using ih d
    | Button b dn => cases b <;> simp [leftDown, ih]
    | Scroll dl => simpa [leftDown] using ih d

theorem leftDown_other (d : Bool) (as : List Action) (h : ∀ a ∈ as, a.isLeft = false) :
    leftDown d as = d := by
  induction as generalizing d with
  | nil => rfl
  | cons a as ih =>
    have ha := h a (List.mem_cons_self _ _)
    have hr := ih d (fun x hx => h x (List.mem_cons_of_mem _ hx))
    cases a with
    | Move dx dy => simpa [leftDown] using hr
    | Button b dn =>
      cases b
      · simp [Action.isLeft] at ha
      · simpa [leftDown] using hr
    | Scroll dl => simpa [leftDown] using hr

theorem trackingBlock_leftDown (s : State) (now : Int) (l : Line) (d : Bool)
    (h : s.isDragging = true → d = true) :
    (trackingBlock s now l).1.isDragging = true →
      leftDown d (trackingBlock s now l).2 = true := by
  unfold trackingBlock
  split
  · split
    · unfold recordRelease endDrag decFingers
      split <;> split <;> simp_all
    · unfold startDrag addFinger
      split
      · simp [leftDown]
      · simpa [leftDown] using h
  · simpa [leftDown] using h

theorem touchBlock_leftDown (s : State) (now : Int) (l : Line) (d : Bool)
    (h : s.isDragging = true → d = true) :
    (touchBlock s now l).1.isDragging = true → leftDown d (touchBlock s now l).2 = true := by
  rw [(touchBlock_keeps s now l).1]
  intro hd
  rcases touchBlock_calls s now l with hc | hc
  · rw [hc]; exact h hd
  · rw [hd] at hc; exact absurd hc.2.1 (by simp)

theorem scrollOrMove_other (s : State) (dx dy : Int) :
    ∀ a ∈ (scrollOrMove s dx dy).2, a.isLeft = false := by
  unfold scrollOrMove
  split
  · dsimp only
    split <;> simp [Action.isLeft]
  · simp [Action.isLeft]

theorem deviceBlock_other (s : State) (fg : Bool) (l : Line) :
    ∀ a ∈ (deviceBlock s fg l).2, a.isLeft = false := by
  unfold deviceBlock
  split
  · split
    · unfold synReport
      split
      · simp
      · unfold motion
        split
        · split
          · exact scrollOrMove_other _ _ _
          · simp
        · simp
    · simp
  · simp

theorem timerFire_other (s : State) (now : Int) (id : Nat) :
    ∀ a ∈ (step s (Event.timerFire now id)).2, a.isLeft = false := by
  unfold step longPress
  dsimp only
  split
  · split <;> simp [Action.isLeft]
  · simp

/-- One event keeps: if `isDragging` is set, the left button is down. -/
theorem step_leftDown (s : State) (e : Event) (d : Bool)
    (h : s.isDragging = true → d = true) :
    (step s e).1.isDragging = true → leftDown d (step s e).2 = true := by
  cases e with
  | line now fg l =>
    simp only [step, processLine, leftDown_append]
    have hT := trackingBlock_leftDown s now l d h
    have hB := touchBlock_leftDown (trackingBlock s now l).1 now l _ hT
    rw [(deviceBlock_fields _ fg l).2.1, leftDown_other _ _ (deviceBlock_other _ fg l)]
    exact hB
  | timerFire now id =>
    rw [(timerFire_fields s now id).2.1, leftDown_other _ _ (timerFire_other s now id)]
    exact h

theorem run_leftDown (es : List Event) (s : State) (d : Bool)
    (h : s.isDragging = true → d = true) :
    (run s es).1.isDragging = true → leftDown d (run s es).2 = true := by
  induction es generalizing s d with
  | nil => simpa [run, leftDown] using h
  | cons e es ih =>
    simp only [run, leftDown_append]
    exact ih (step s e).1 _ (step_leftDown s e d h)

/-- C8: after any sequence of lines and timer firings from the initial state,
with the left button up at the start and its state given by the last
`driver.Button("left", _)` call, `isDragging` implies that the left button is
down. -/
theorem C8_dragging_holds_left (es : List Event) :
    (run State.init es).1.isDragging = true → leftDown false (run State.init es).2 = true :=
  run_leftDown es State.init false (fun h => absurd h (by decide))

/-- Witness of C8: a tap followed within 250 ms by a new finger and a move is
dragging, and the left button is down. -/
theorem C8_dragging_holds_left_witness :
    leftDown false (run State.init [Event.line 0 true Line.newFinger,
      Event.line 0 true Line.touchDown, Event.line 100000000 true Line.lift,
      Event.line 100000000 true Line.touchUp, Event.line 150000000 true Line.newFinger,
      Event.line 150000000 true Line.touchDown, Event.line 160000000 true (Line.posX 100),
      Event.line 160000000 true (Line.posY 100), Event.line 160000000 true Line.syn,
      Event.line 170000000 true (Line.posX 110), Event.line 170000000 true Line.syn]).2
      = true :=
  C8_dragging_holds_left [Event.line 0 true Line.newFinger,
      Event.line 0 true Line.touchDown, Event.line 100000000 true Line.lift,
      Event.line 100000000 true Line.touchUp, Event.line 150000000 true Line.newFinger,
      Event.line 150000000 true Line.touchDown, Event.line 160000000 true (Line.posX 100),
      Event.line 160000000 true (Line.posY 100), Event.line 160000000 true Line.syn,
      Event.line 170000000 true (Line.posX 110), Event.line 170000000 true Line.syn]
    (by decide)

/-! ## C9 -/

/-- C9 fails on the code: touch-button DOWN assigns a new timer to
`rightClickTimer` without stopping the one it pointed to.  After a new finger
and two touch-button DOWN lines (at 0 and at 100 ms) two timers are outstanding;
the touch-button UP that follows stops only the second, so the first is still
outstanding after it, and when it fires at 600 ms it makes the right-click
calls, after the left-click calls of the UP. -/
theorem C9_two_timers_outstanding :
    (run State.init [Event.line 0 true Line.newFinger, Event.line 0 true Line.touchDown,
      Event.line 100000000 true Line.touchDown]).1.timers
      = [(0, 600000000), (1, 700000000)] ∧
    (run State.init [Event.line 0 true Line.newFinger, Event.line 0 true Line.touchDown,
      Event.line 100000000 true Line.touchDown,
      Event.line 150000000 true Line.touchUp]).1.timers = [(0, 600000000)] ∧
    (run State.init [Event.line 0 true Line.newFinger, Event.line 0 true Line.touchDown,
      Event.line 100000000 true Line.touchDown, Event.line 150000000 true Line.touchUp,
      Event.timerFire 600000000 0]).2
      = [Action.Button Btn.left true, Action.Button Btn.left false,
          Action.Button Btn.right true, Action.Button Btn.right false] := by
  decide

/-! ## C10 -/

/-- C10 fails as stated: in `halfBaselineState` the baseline `(0, 5)` has a
non-zero coordinate, one finger is active and the host deltas are `3` and `9`,
yet the sync-report makes no driver call and leaves `hasMoved` false. -/
theorem C10_unset_counterexample :
    halfBaselineState.lastX = 0 ∧ halfBaselineState.lastY = 5 ∧
    halfBaselineState.curX = 3 ∧ halfBaselineState.curY = 4 ∧
    halfBaselineState.activeFingers = 1 ∧
    hostDelta halfBaselineState.lastY halfBaselineState.curY = 3 ∧
    hostDelta halfBaselineState.curX halfBaselineState.lastX = 9 ∧
    (step halfBaselineState (Event.line 0 true Line.syn)).2 = [] ∧
    (step halfBaselineState (Event.line 0 true Line.syn)).1.hasMoved = false := by
  decide

/-- C10 as amended: on a sync-report with the foreground flag set, the baseline
is treated as unset when any of `lastX`, `lastY`, `curX`, `curY` is `0`: no driver
call is made and only the baseline changes; when all four are non-zero, with
fewer than two active fingers and host deltas not both zero, exactly
`Move(dx, dy)` is called and `hasMoved` is set.  In every case the baseline is
the current sample afterwards. -/
theorem C10_baseline (s : State) (now : Int) :
    (s.lastX = 0 ∨ s.lastY = 0 ∨ s.curX = 0 ∨ s.curY = 0 →
      step s (Event.line now true Line.syn) = ({ s with lastX := s.curX, lastY := s.curY }, [])) ∧
    (s.lastX ≠ 0 ∧ s.lastY ≠ 0 ∧ s.curX ≠ 0 ∧ s.curY ≠ 0 → s.activeFingers < 2 →
      hostDelta s.lastY s.curY ≠ 0 ∨ hostDelta s.curX s.lastX ≠ 0 →
      (step s (Event.line now true Line.syn)).2
        = [Action.Move (hostDelta s.lastY s.curY) (hostDelta s.curX s.lastX)] ∧
      (step s (Event.line now true Line.syn)).1.hasMoved = true) ∧
    (step s (Event.line now true Line.syn)).1.lastX = s.curX ∧
    (step s (Event.line now true Line.syn)).1.lastY = s.curY := by
  have hS := scrollOrMove_fields (stopTimer { s with hasMoved := true })
    (hostDelta s.lastY s.curY) (hostDelta s.curX s.lastX)
  refine ⟨?_, ?_, ?_, ?_⟩
  · intro h
    have hn : ¬ (s.lastX ≠ 0 ∧ s.lastY ≠ 0 ∧ s.curX ≠ 0 ∧ s.curY ≠ 0) := by
      rintro ⟨h1, h2, h3, h4⟩
      rcases h with h | h | h | h
      · exact h1 h
      · exact h2 h
      · exact h3 h
      · exact h4 h
    simp only [step, processLine_syn, synReport, motion]
    simp [hn, setBaseline]
  · intro hb hf hd
    have hnf : ¬ (stopTimer { s with hasMoved := true }).activeFingers ≥ 2 := by
      simpa using hf
    simp only [step, processLine_syn, synReport, motion, moved]
    simp only [Bool.true_eq_false, if_false, if_pos hb, if_pos hd, setBaseline]
    simp only [scrollOrMove, if_neg hnf]
    simp
  · simp only [step, processLine_syn, synReport, motion, moved, setBaseline]
    simp only [Bool.true_eq_false, if_false]
    split
    · split
      · rw [hS.2.2.2.2.2.2.2.2.1]; simp
      · rfl
    · rfl
  · simp only [step, processLine_syn, synReport, motion, moved, setBaseline]
    simp only [Bool.true_eq_false, if_false]
    split
    · split
      · rw [hS.2.2.2.2.2.2.2.2.2]; simp
      · rfl
    · rfl

/-- Witness of C10: in `halfBaselineState` only the baseline changes; after a
baseline of `(100, 100)` the sample `(110, 100)` calls `Move(0, 32)`. -/
theorem C10_baseline_witness :
    (step halfBaselineState (Event.line 0 true Line.syn)).2 = [] ∧
    (step (run State.init [Event.line 0 true Line.newFinger, Event.line 0 true (Line.posX 100),
        Event.line 0 true (Line.posY 100), Event.line 0 true Line.syn,
        Event.line 0 true (Line.posX 110)]).1 (Event.line 0 true Line.syn)).2
      = [Action.Move 0 32] :=
  ⟨congrArg Prod.snd ((C10_baseline halfBaselineState 0).1 (Or.inl (by decide))),
    ((C10_baseline (run State.init [Event.line 0 true Line.newFinger,
        Event.line 0 true (Line.posX 100), Event.line 0 true (Line.posY 100),
        Event.line 0 true Line.syn, Event.line 0 true (Line.posX 110)]).1 0).2.1
      (by decide) (by decide) (by decide)).1.trans (by decide)⟩

/-! ## C11 -/

theorem WriteEvent_file (l : LinuxDriver) (typ code : Nat) (val : Int) :
    (l.WriteEvent typ code val).file = l.file ++ [linuxInputEvent.mk 0 0 typ code val] := rfl

theorem written_append (l : LinuxDriver) (es : List linuxInputEvent) :
    (LinuxDriver.mk (l.file ++ es)).written l = es.map linuxInputEvent.fields := by
  simp [LinuxDriver.written]

theorem Move_file (l : LinuxDriver) (dx dy : Int) :
    l.Move dx dy = LinuxDriver.mk (l.file ++ [linuxInputEvent.mk 0 0 0x02 0x00 dx,
      linuxInputEvent.mk 0 0 0x02 0x01 dy, linuxInputEvent.mk 0 0 0x00 0x00 0]) := by
  simp [LinuxDriver.Move, LinuxDriver.WriteEvent]

theorem Button_file (l : LinuxDriver) (b : String) (down : Bool) :
    l.Button b down = LinuxDriver.mk (l.file ++ [linuxInputEvent.mk 0 0 0x01
      (if b = "right" then 0x111 else 0x110) (if down = true then 1 else 0),
      linuxInputEvent.mk 0 0 0x00 0x00 0]) := by
  simp [LinuxDriver.Button, LinuxDriver.WriteEvent]

theorem Scroll_file (l : LinuxDriver) (d : Int) :
    l.Scroll d = LinuxDriver.mk (l.file ++ [linuxInputEvent.mk 0 0 0x02 0x08 d,
      linuxInputEvent.mk 0 0 0x00 0x00 0]) := by
  simp [LinuxDriver.Scroll, LinuxDriver.WriteEvent]

/-- C11: on the Linux backend, `Move(dx, dy)` writes exactly the events
`(0x02, 0x00, dx)`, `(0x02, 0x01, dy)`, `(0, 0, 0)`; `Button(b, down)` writes
exactly `(0x01, code, v)`, `(0, 0, 0)` with `code = 0x111` for `"right"` and
`0x110` for `"left"` (and for any other string), `v = 1` if `down` and `0`
otherwise; `Scroll(d)` writes exactly `(0x02, 0x08, d)`, `(0, 0, 0)` with `d` as
passed in.  Each event has `Time` zero, what was written before stays in place,
and the events of every driver call of `processInput` end with the
synchronization marker and hold it exactly once. -/
theorem C11_linux_events (l : LinuxDriver) (dx dy d : Int) (b : String) (down : Bool)
    (a : Action) :
    (l.Move dx dy).file = l.file ++ [linuxInputEvent.mk 0 0 0x02 0x00 dx,
      linuxInputEvent.mk 0 0 0x02 0x01 dy, linuxInputEvent.mk 0 0 0x00 0x00 0] ∧
    (l.Move dx dy).written l = [(0x02, 0x00, dx), (0x02, 0x01, dy), (0x00, 0x00, 0)] ∧
    (l.Button "right" down).written l
      = [(0x01, 0x111, if down = true then 1 else 0), (0x00, 0x00, 0)] ∧
    (l.Button "left" down).written l
      = [(0x01, 0x110, if down = true then 1 else 0), (0x00, 0x00, 0)] ∧
    (l.Button b down).file = l.file ++ [linuxInputEvent.mk 0 0 0x01
      (if b = "right" then 0x111 else 0x110) (if down = true then 1 else 0),
      linuxInputEvent.mk 0 0 0x00 0x00 0] ∧
    (l.Scroll d).file = l.file ++ [linuxInputEvent.mk 0 0 0x02 0x08 d,
      linuxInputEvent.mk 0 0 0x00 0x00 0] ∧
    (l.Scroll d).written l = [(0x02, 0x08, d), (0x00, 0x00, 0)] ∧
    (l.call a).file.take l.file.length = l.file ∧
    ((l.call a).written l).getLast? = some synMarker ∧
    ((l.call a).written l).count synMarker = 1 := by
  refine ⟨by rw [Move_file], ?_, ?_, ?_, by rw [Button_file], by rw [Scroll_file], ?_, ?_, ?_, ?_⟩
  · rw [Move_file, written_append]
    rfl
  · rw [Button_file, written_append]
    rfl
  · rw [Button_file, written_append]
    rfl
  · rw [Scroll_file, written_append]
    rfl
  · cases a with
    | Move x y => simp [LinuxDriver.call, Move_file]
    | Button c dn => simp [LinuxDriver.call, Button_file]
    | Scroll x => simp [LinuxDriver.call, Scroll_file]
  · cases a with
    | Move x y =>
      simp only [LinuxDriver.call]
      rw [Move_file, written_append]
      rfl
    | Button c dn =>
      simp only [LinuxDriver.call]
      rw [Button_file, written_append]
      rfl
    | Scroll x =>
      simp only [LinuxDriver.call]
      rw [Scroll_file, written_append]
      rfl
  · cases a with
    | Move x y =>
      simp only [LinuxDriver.call]
      rw [Move_file, written_append]
      simp [linuxInputEvent.fields, synMarker, List.count_cons]
    | Button c dn =>
      simp only [LinuxDriver.call]
      rw [Button_file, written_append]
      simp [linuxInputEvent.fields, synMarker, List.count_cons]
    | Scroll x =>
      simp only [LinuxDriver.call]
      rw [Scroll_file, written_append]
      simp [linuxInputEvent.fields, synMarker, List.count_cons]

/-- The lines of the scenario of C1, through the loop and the Linux backend: one
finger, the samples `(0x64, 0x64)` and `(0x6E, 0x64)` write the events
`(0x02, 0x00, 0)`, `(0x02, 0x01, 32)`, `(0, 0, 0)`. -/
theorem linux_first_move :
    ((LinuxDriver.mk []).calls (run State.init [Event.line 0 true Line.newFinger,
      Event.line 1 true (Line.posX 0x64), Event.line 2 true (Line.posY 0x64),
      Event.line 3 true Line.syn, Event.line 4 true (Line.posX 0x6E),
      Event.line 5 true (Line.posY 0x64), Event.line 6 true Line.syn]).2).written
        (LinuxDriver.mk [])
      = [(0x02, 0x00, 0), (0x02, 0x01, 32), (0x00, 0x00, 0)] := by
  decide

end Touchpad
